import Mathlib

/-!
Verification of the hydrology simulation in `library/rivers.py` (class
`Rivers`).  The Python code is shallowly embedded: numpy arrays become
`Grid` values (a size plus a total storage function over resolved
indices), Python floats become `ℚ`, fallible operations (numpy indexing
errors, subscripting `None`, unbounded loops) return `Except GenErr`,
and the standard-library random source is injected as a stream, as the
specification requires for reproducibility.
-/

/-- Errors an embedded run can raise, mirroring the Python exceptions:
`typeError` for subscripting `None`, `indexError` for a numpy/list index
out of range, and `fuelOut` for a `while` loop that exceeds the supplied
fuel (the Python loop would simply keep running). -/
inductive GenErr where
  | typeError
  | indexError
  | fuelOut
  deriving DecidableEq, Repr

/-- A grid coordinate, a Python `[x, y]` pair of ints. -/
abbrev Coord : Type := ℤ × ℤ

/-- `overflow = lambda value, maxValue: value % maxValue` (rivers.py line 25).
`Int.emod` agrees with Python `%` for a positive modulus. -/
def overflow (value maxValue : ℤ) : ℤ := value % maxValue

/-- A numpy 2-d array of `α`: dimensions and a total storage function.
Reads and writes go through resolved (non-negative, in-range) indices. -/
structure Grid (α : Type) where
  w : ℕ
  h : ℕ
  val : ℤ → ℤ → α

/-- The storage cell a raw coordinate refers to (both axes reduced mod the
dimension, as numpy does for in-range negative indices). -/
def Grid.res (g : Grid α) (x y : ℤ) : ℤ × ℤ :=
  (overflow x (g.w : ℤ), overflow y (g.h : ℤ))

/-- The numpy index range `[-w, w) × [-h, h)` (negatives wrap). -/
def Grid.InR (g : Grid α) (x y : ℤ) : Prop :=
  -(g.w : ℤ) ≤ x ∧ x < (g.w : ℤ) ∧ -(g.h : ℤ) ≤ y ∧ y < (g.h : ℤ)

instance (g : Grid α) (x y : ℤ) : Decidable (g.InR x y) := by
  unfold Grid.InR; infer_instance

/-- Read at an index already reduced by `overflow`; always in range. -/
def Grid.atW (g : Grid α) (x y : ℤ) : α :=
  g.val (g.res x y).1 (g.res x y).2

/-- numpy read: in-range indices resolve, anything else is an
`IndexError`, reported here as `none`. -/
def Grid.read? (g : Grid α) (x y : ℤ) : Option α :=
  if g.InR x y then some (g.atW x y) else none

/-- Unchecked write (used only where the index is known to be in range;
it stores through the same resolution as `read?`). -/
def Grid.writeW (g : Grid α) (x y : ℤ) (v : α) : Grid α :=
  { g with val := fun a b => if (a, b) = g.res x y then v else g.val a b }

/-- numpy write: in-range indices store, anything else is an `IndexError`. -/
def Grid.writeE (g : Grid α) (x y : ℤ) (v : α) : Except GenErr (Grid α) :=
  if g.InR x y then .ok (g.writeW x y v) else .error .indexError

/-- `numpy.zeros((w, h))`-style constant grid. -/
def zerosG (w h : ℕ) (a : α) : Grid α := ⟨w, h, fun _ _ => a⟩

/-- Lift an optional read into the error monad (a failed numpy read is an
`IndexError`). -/
def ofOpt : Option α → Except GenErr α
  | some a => .ok a
  | none => .error .indexError

/-- Every stored value of the grid is non-negative (the spec's heightmaps
take values in `[0, 1]`). -/
def Grid.Nonneg (g : Grid ℚ) : Prop := ∀ a b, 0 ≤ g.val a b

/-- Pointwise domination: same shape and every stored value of `g'` is at
most the corresponding value of `g`. -/
def Grid.Below (g' g : Grid ℚ) : Prop :=
  g'.w = g.w ∧ g'.h = g.h ∧ ∀ a b, g'.val a b ≤ g.val a b

/-- Python `range(a, b)` over integers. -/
def rangeZ (a b : ℤ) : List ℤ := (List.range (b - a).toNat).map (fun (n : ℕ) => a + (n : ℤ))

/-- Python `range(a, b, s)` over integers, positive step. -/
def rangeZs (a b : ℤ) (s : ℕ) : List ℤ :=
  (List.range (((b - a).toNat + s - 1) / s)).map (fun (n : ℕ) => a + ((n * s : ℕ) : ℤ))

/-- Modelled from the spec: the repository's `constants` module is not in
the sources.  §3/§4.2 describe a 4-connected neighbor set
(up/down/left/right) used for flow and tracing. -/
def DIR_NEIGHBORS : List (ℤ × ℤ) := [(0, -1), (1, 0), (0, 1), (-1, 0)]

/-- Modelled from the spec: the direction table indexed by the flow-
direction grid; index 0 is "no direction" (the center), matching the
`waterPath[x,y] == 0` dead-end test in the source. -/
def DIR_NEIGHBORS_CENTER : List (ℤ × ℤ) := (0, 0) :: DIR_NEIGHBORS

/-- Modelled from the spec: sea-level elevation threshold (`constants`
module absent); heightmap values lie in `[0,1]`. -/
def WGEN_SEA_LEVEL : ℚ := 1/4

/-- Modelled from the spec: lower edge of the hill band (`constants`
module absent). -/
def BIOME_ELEVATION_HILLS_LOW : ℚ := 2/5

/-- Modelled from the spec: hill elevation used by the stochastic
source-finding band (`constants` module absent). -/
def BIOME_ELEVATION_HILLS : ℚ := 1/2

/-- Modelled from the spec: upper edge of the hill-to-low-mountain band
(`constants` module absent). -/
def BIOME_ELEVATION_MOUNTAIN_LOW : ℚ := 4/5

/-- `Rivers.inCircle` (rivers.py lines 203-205). -/
def inCircle (radius cx cy x y : ℤ) : Bool :=
  (cx - x) ^ 2 + (cy - y) ^ 2 ≤ radius ^ 2

/-- Squared Euclidean distance between two coordinates. -/
def sqDist (a b : Coord) : ℤ := (a.1 - b.1) ^ 2 + (a.2 - b.2) ^ 2

/-- Per-run mutable state of a `Rivers` object, plus the caller's input
array (`inputH`, read again at step six) and the injected random streams
(`rand` for `random.uniform`, `randN` for `random.randint`, `ridx` the
next stream position). -/
structure RState where
  inputH : Grid ℚ
  heightmap : Grid ℚ
  riverMap : Grid ℚ
  lakeMap : Grid ℚ
  erosionMap : Grid ℚ
  waterPath : Grid ℕ
  waterFlow : Option (Grid ℚ)
  rainMap : Option (Grid ℚ)
  lakeList : List Coord
  riverList : List (List Coord)
  wrap : Bool
  rand : ℕ → ℚ
  randN : ℕ → ℕ
  ridx : ℕ

/-- `self.worldW` —  the source fixes it to `len(self.heightmap)`, and no
operation changes the shape of `self.heightmap`. -/
def RState.wW (st : RState) : ℤ := (st.heightmap.w : ℤ)

/-- `self.worldH = len(self.heightmap[0])`. -/
def RState.wH (st : RState) : ℤ := (st.heightmap.h : ℤ)

/-- Modelled from the spec: `random.uniform(a, b)` with the injected
stream; the stream value is clamped into `[0,1]`, the guarantee the
standard library provides for `random()`. -/
def RState.uniform (st : RState) (a b : ℚ) : ℚ × RState :=
  (a + max 0 (min 1 (st.rand st.ridx)) * (b - a), { st with ridx := st.ridx + 1 })

/-- Modelled from the spec: `random.randint(a, b)` (both ends inclusive)
with the injected stream. -/
def RState.randint (st : RState) (a b : ℤ) : ℤ × RState :=
  (a + (st.randN st.ridx : ℤ) % (b - a + 1), { st with ridx := st.ridx + 1 })

/-- `Rivers.isOutOfBounds` (rivers.py lines 389-395). -/
def isOutOfBounds (st : RState) (c : Coord) : Bool :=
  c.1 < 0 ∨ c.2 < 0 ∨ c.1 ≥ st.wW ∨ c.2 ≥ st.wH

/-- The loop body of `Rivers.findQuickPath` (rivers.py lines 365-382):
skip out-of-bounds neighbors in clamp mode, compare the elevation at the
wrapped position, and keep the unresolved `tempDir` on improvement. -/
def fqStep (st : RState) (c : Coord) (acc : Option Coord × ℚ) (d : ℤ × ℤ) :
    Option Coord × ℚ :=
  let t : Coord := (c.1 + d.1, c.2 + d.2)
  if !st.wrap && isOutOfBounds st t then acc
  else
    let tw : Coord := (overflow t.1 st.wW, overflow t.2 st.wH)
    let e := st.heightmap.atW tw.1 tw.2
    if e < acc.2 then (some t, e) else acc

/-- `Rivers.findQuickPath` (rivers.py lines 353-387): scan the 4-connected
neighborhood for the lowest elevation strictly below the cell's own;
returns the *unresolved* winning coordinate (`tempDir`), while comparing
elevations at the wrapped position — exactly as the source does. -/
def findQuickPath (st : RState) (c : Coord) : Except GenErr (Option Coord) := do
  let h0 ← ofOpt (st.heightmap.read? c.1 c.2)
  return (DIR_NEIGHBORS.foldl (fqStep st c) (none, h0)).1

/-- A 3×3 heightmap used by concrete evaluations: 0.9 everywhere except
0.5 at (0,1) and 0.8 at (2,1). -/
def gTest : Grid ℚ :=
  ⟨3, 3, fun a b => if a = 0 ∧ b = 1 then 1/2 else if a = 2 ∧ b = 1 then 4/5 else 9/10⟩

/-- A bare state holding a given heightmap (wrap mode, empty lists,
constant-zero random streams). -/
def mkState (g : Grid ℚ) : RState :=
  ⟨g, g, zerosG g.w g.h 0, zerosG g.w g.h 0, zerosG g.w g.h 0, zerosG g.w g.h 0,
    some (zerosG g.w g.h 0), none, [], [], true, fun _ => 0, fun _ => 0, 0⟩

/-- One cell of `Rivers.findWaterFlow` (rivers.py lines 110-118): look up
the quick path, translate it to a direction offset, and store that
offset's key into the flow-direction grid. -/
def fwCell (st : RState) (x y : ℤ) (wp : Grid ℕ) : Except GenErr (Grid ℕ) := do
  let p ← findQuickPath st (x, y)
  match p with
  | none => .ok wp
  | some t =>
      let flowDir : ℤ × ℤ := (t.1 - x, t.2 - y)
      .ok (DIR_NEIGHBORS_CENTER.foldl
        (fun (acc : Grid ℕ × ℕ) dir =>
          ((if dir = flowDir then acc.1.writeW x y acc.2 else acc.1), acc.2 + 1))
        (wp, 0)).1

/-- Inner `y` loop of `findWaterFlow`. -/
def fwRowY (st : RState) (x : ℤ) : List ℤ → Grid ℕ → Except GenErr (Grid ℕ)
  | [], wp => .ok wp
  | y :: ys, wp => do
      let wp' ← fwCell st x y wp
      fwRowY st x ys wp'

/-- Outer `x` loop of `findWaterFlow`. -/
def fwColX (st : RState) : List ℤ → Grid ℕ → Except GenErr (Grid ℕ)
  | [], wp => .ok wp
  | x :: xs, wp => do
      let wp' ← fwRowY st x (rangeZ 0 (st.wH - 1)) wp
      fwColX st xs wp'

/-- `Rivers.findWaterFlow` (rivers.py lines 104-118): flow direction for
each cell of `xrange(worldW - 1) × xrange(worldH - 1)`. -/
def findWaterFlow (st : RState) : Except GenErr RState := do
  let wp ← fwColX st (rangeZ 0 (st.wW - 1)) st.waterPath
  .ok { st with waterPath := wp }

/-- Candidate collection inside one tile of the stochastic strategy
(rivers.py lines 134-144): every cell of the 32×32 tile whose (wrapped)
elevation lies in the hill band, with the wrapped coordinate recorded. -/
def srcV1Gather (st : RState) (x y : ℤ) : List Coord :=
  (rangeZ x (x + 32)).foldl (fun acc sx =>
    (rangeZ y (y + 32)).foldl (fun acc2 sy =>
      if !st.wrap && isOutOfBounds st (sx, sy) then acc2
      else
        let sxw := overflow sx st.wW
        let syw := overflow sy st.wH
        let e := st.heightmap.atW sxw syw
        if e < BIOME_ELEVATION_HILLS ∨ BIOME_ELEVATION_MOUNTAIN_LOW < e then acc2
        else acc2 ++ [(sxw, syw)]) acc) []

/-- Inner tile loop of the stochastic strategy (rivers.py lines 131-150);
`random.randint(0, len(sources))` is inclusive at both ends, so the pick
can index one past the end of the list — kept faithfully. -/
def srcV1Y (x : ℤ) : List ℤ → List Coord × RState → Except GenErr (List Coord × RState)
  | [], acc => .ok acc
  | y :: ys, (lst, st) =>
      let sources := srcV1Gather st x y
      if sources = [] then srcV1Y x ys (lst, st)
      else
        let (i, st') := st.randint 0 sources.length
        match sources.get? i.toNat with
        | some s => srcV1Y x ys (lst ++ [s], st')
        | none => .error .indexError

/-- Outer tile loop of the stochastic strategy (rivers.py line 130). -/
def srcV1X : List ℤ → List Coord × RState → Except GenErr (List Coord × RState)
  | [], acc => .ok acc
  | x :: xs, (lst, st) => do
      let acc' ← srcV1Y x (rangeZs 0 (st.wH - 1) 32) (lst, st)
      srcV1X xs acc'

/-- "Version 1" of `Rivers.riverSources` (rivers.py lines 126-150): the
stochastic per-tile strategy. -/
def riverSourcesV1 (st : RState) : Except GenErr (List Coord × RState) :=
  srcV1X (rangeZs 0 (st.wW - 1) 32) ([], st)

/-- The `while not neighbourSeedFound` walk of "Version 2" (rivers.py
lines 173-200): follow the flow-direction path, accumulating rainfall,
until a seed is found (recorded unless within radius 9 of an earlier
seed) or the path dead-ends. -/
def followFlow (hm : Grid ℚ) (wP : Grid ℕ) (rainFall : ℚ) :
    List Coord → Grid ℚ → Coord → ℕ → Except GenErr (List Coord × Grid ℚ)
  | _, _, _, 0 => .error .fuelOut
  | srcs, wf, c, fuel+1 => do
      let hcc ← ofOpt (hm.read? c.1 c.2)
      let wfcc ← ofOpt (wf.read? c.1 c.2)
      if BIOME_ELEVATION_HILLS_LOW ≤ hcc ∧ hcc ≤ BIOME_ELEVATION_MOUNTAIN_LOW ∧ 10 ≤ wfcc then
        if srcs.any fun s => inCircle 9 c.1 c.2 s.1 s.2 then .ok (srcs, wf)
        else .ok (srcs ++ [c], wf)
      else do
        let k ← ofOpt (wP.read? c.1 c.2)
        if k = 0 then .ok (srcs, wf)
        else
          match DIR_NEIGHBORS_CENTER.get? k with
          | none => .error .indexError
          | some d => do
              let n : Coord := (c.1 + d.1, c.2 + d.2)
              let prev ← ofOpt (wf.read? n.1 n.2)
              let wf' ← wf.writeE n.1 n.2 (prev + rainFall)
              followFlow hm wP rainFall srcs wf' n fuel

/-- One cell of "Version 2" (rivers.py lines 166-200): seed the cell's
flow with its rainfall, skip cells without flow direction, otherwise
follow the flow path. -/
def srcV2Cell (st : RState) (wP : Grid ℕ) (x y : ℤ) (acc : List Coord × Grid ℚ)
    (fuel : ℕ) : Except GenErr (List Coord × Grid ℚ) := do
  let rmg ← match st.rainMap with
    | none => Except.error GenErr.typeError
    | some rmg => Except.ok rmg
  let rainFall ← ofOpt (rmg.read? x y)
  let wf1 ← acc.2.writeE x y rainFall
  let k ← ofOpt (wP.read? x y)
  if k = 0 then .ok (acc.1, wf1)
  else followFlow st.heightmap wP rainFall acc.1 wf1 (x, y) fuel

/-- Inner `y` loop of "Version 2" (rivers.py line 165). -/
def srcV2Y (st : RState) (wP : Grid ℕ) (fuel : ℕ) (x : ℤ) :
    List ℤ → List Coord × Grid ℚ → Except GenErr (List Coord × Grid ℚ)
  | [], acc => .ok acc
  | y :: ys, acc => do
      let acc' ← srcV2Cell st wP x y acc fuel
      srcV2Y st wP fuel x ys acc'

/-- Outer `x` loop of "Version 2" (rivers.py line 164). -/
def srcV2X (st : RState) (wP : Grid ℕ) (fuel : ℕ) :
    List ℤ → List Coord × Grid ℚ → Except GenErr (List Coord × Grid ℚ)
  | [], acc => .ok acc
  | x :: xs, acc => do
      let acc' ← srcV2Y st wP fuel x (rangeZ 0 (st.wH - 1)) acc
      srcV2X st wP fuel xs acc'

/-- "Version 2" of `Rivers.riverSources` (rivers.py lines 152-200): the
rainfall accumulation strategy, with the mutated water-flow grid stored
back into the state. -/
def riverSourcesV2 (st : RState) (wf0 : Grid ℚ) (fuel : ℕ) :
    Except GenErr (List Coord × RState) := do
  let (srcs, wf) ← srcV2X st st.waterPath fuel (rangeZ 0 (st.wW - 1)) ([], wf0)
  .ok (srcs, { st with waterFlow := some wf })

/-- `Rivers.riverSources` (rivers.py lines 122-201).  The source selects
the branch on `self.waterFlow is None` — not on the rain map. -/
def riverSources (st : RState) (fuel : ℕ) : Except GenErr (List Coord × RState) :=
  match st.waterFlow with
  | none => riverSourcesV1 st
  | some wf => riverSourcesV2 st wf fuel

/-- `for river in self.riverList: if [nx, ny] in river` (rivers.py lines
222-223): the first already-traced river containing the neighbor. -/
def scanRivers (n : Coord) : List (List Coord) → Option (List Coord)
  | [] => none
  | riv :: rest => if n ∈ riv then some riv else scanRivers n rest

/-- The neighbor scan of `Rivers.riverFlow` (rivers.py lines 217-223):
for each 4-connected offset (wrapped in wrap mode), the first existing
river containing that neighbor, together with the neighbor coordinate. -/
def mergeScanDirs (st : RState) (c : Coord) : List (ℤ × ℤ) → Option (List Coord × Coord)
  | [] => none
  | d :: ds =>
      let n0 : Coord := (c.1 + d.1, c.2 + d.2)
      let n : Coord := if st.wrap then (overflow n0.1 st.wW, overflow n0.2 st.wH) else n0
      match scanRivers n st.riverList with
      | some riv => some (riv, n)
      | none => mergeScanDirs st c ds

/-- The merge append of `Rivers.riverFlow` (rivers.py lines 225-231): the
existing river's coordinates from the first occurrence of the hit
onward. -/
def mergeTail (hit : Coord) : List Coord → List Coord
  | [] => []
  | r :: rest => if r = hit then r :: rest else mergeTail hit rest

/-- One radius of `Rivers.findLowerElevation` (rivers.py lines 410-433):
scan the square, skip out-of-circle cells, track the lowest elevation
and its (wrapped) coordinate, and record coordinates found across the
boundary in the `wrapped` list. -/
def fleRadius (st : RState) (x y r : ℤ) (acc : ℚ × Option Coord × List Coord) :
    ℚ × Option Coord × List Coord :=
  (rangeZ (-r) (r + 1)).foldl (fun a1 cx =>
    (rangeZ (-r) (r + 1)).foldl (fun a2 cy =>
      let rx0 := x + cx
      let ry0 := y + cy
      if !st.wrap && isOutOfBounds st (rx0, ry0) then a2
      else if !inCircle r x y rx0 ry0 then a2
      else
        let rxw := overflow rx0 st.wW
        let ryw := overflow ry0 st.wH
        let e := st.heightmap.atW rxw ryw
        if e < a2.1 then
          (e, some (rxw, ryw),
            if isOutOfBounds st (rx0, ry0) then a2.2.2 ++ [(rxw, ryw)] else a2.2.2)
        else a2) a1) acc

/-- The expanding-radius loop of `findLowerElevation` (rivers.py line
409): radii 1..40, stopping once a destination has been found. -/
def fleLoop (st : RState) (x y : ℤ) : List ℤ → ℚ × Option Coord × List Coord →
    ℚ × Option Coord × List Coord
  | [], acc => acc
  | r :: rs, acc => if acc.2.1.isSome then acc else fleLoop st x y rs (fleRadius st x y r acc)

/-- `Rivers.findLowerElevation` (rivers.py lines 397-440): returns
`(isWrapped, destination)`; `isWrapped` is the final destination's
membership in the `wrapped` list. -/
def findLowerElevation (st : RState) (c : Coord) : Except GenErr (Bool × Option Coord) := do
  let h0 ← ofOpt (st.heightmap.read? c.1 c.2)
  let res := fleLoop st c.1 c.2 (rangeZ 1 41) (h0, none, [])
  match res.2.1 with
  | none => .ok (false, none)
  | some d => .ok (decide (d ∈ res.2.2), some d)

/-- Modelled from the spec: the `aStar` module is not in the sources.
§4.4 step 4 describes a bounded graph search returning a path (possibly
empty, i.e. no route) from the current cell to the target. -/
def PathFinder : Type := Grid ℚ → Coord → Coord → List Coord

/-- How an embedded `riverFlow` run ended; carried alongside the
source-faithful path so theorems can speak about the exit branch. -/
inductive FlowExit where
  | merged (riv : List Coord) (hit : Coord)
  | sea
  | lake
  | stuck
  deriving Repr, DecidableEq

/-- The `while True` loop of `Rivers.riverFlow` (rivers.py lines
214-272), with fuel: merge scan, sea check, local descent, the bounded
a-star fallback, the literal 0/255 boundary teleport, and the dead-end
lake record. -/
def riverFlowAux (pf : PathFinder) :
    RState → Coord → List Coord → ℕ → Except GenErr (List Coord × RState × FlowExit)
  | _, _, _, 0 => .error .fuelOut
  | st, c, path, fuel+1 =>
    match mergeScanDirs st c DIR_NEIGHBORS with
    | some (riv, hit) => .ok (path ++ mergeTail hit riv, st, .merged riv hit)
    | none => do
      let hxy ← ofOpt (st.heightmap.read? c.1 c.2)
      if hxy ≤ WGEN_SEA_LEVEL then .ok (path, st, .sea)
      else do
        let q ← findQuickPath st c
        match q with
        | some nxt => riverFlowAux pf st nxt (path ++ [nxt]) fuel
        | none => do
          let fle ← findLowerElevation st c
          match fle.2, fle.1 with
          | some d, false =>
              let lp := pf st.heightmap c d
              if h : lp = [] then .ok (path, st, .stuck)
              else riverFlowAux pf st (lp.getLast h) (path ++ lp) fuel
          | some _, true =>
              let x' := if c.1 = 0 then (255 : ℤ) else if c.1 = 255 then 0 else c.1
              let y' := if c.2 = 0 then (255 : ℤ) else if c.2 = 255 then 0 else c.2
              riverFlowAux pf st (x', y') (path ++ [(x', y')]) fuel
          | none, _ => .ok (path, { st with lakeList := st.lakeList ++ [c] }, .lake)

/-- `Rivers.riverFlow` (rivers.py lines 207-274): trace from a source,
starting with `path = [source]`. -/
def riverFlow (pf : PathFinder) (st : RState) (source : Coord) (fuel : ℕ) :
    Except GenErr (List Coord × RState × FlowExit) :=
  riverFlowAux pf st source [source] fuel

/-- The walk of `Rivers.cleanUpFlow` (rivers.py lines 279-286):
`celevation` is the running minimum; cells above it are forced down. -/
def cleanUpAux (g : Grid ℚ) (cel : ℚ) : List Coord → Except GenErr (Grid ℚ)
  | [] => .ok g
  | r :: rest =>
      match g.read? r.1 r.2 with
      | none => .error .indexError
      | some rel =>
          if rel ≤ cel then cleanUpAux g rel rest
          else cleanUpAux (g.writeW r.1 r.2 cel) cel rest

/-- `Rivers.cleanUpFlow` (rivers.py lines 276-287), acting on the
heightmap (the function also returns `river`, unchanged). -/
def cleanUpFlow (g : Grid ℚ) (river : List Coord) : Except GenErr (Grid ℚ) :=
  cleanUpAux g 1 river

/-- The bed-carving pass of `Rivers.riverErosion` (rivers.py lines
297-305): running maximum `m`, lowered to the cell, then sampled in
`[0.99·m, m]` and written back. -/
def bedCarve : RState → ℚ → List Coord → Except GenErr RState
  | st, _, [] => .ok st
  | st, m, r :: rest => do
      let v ← ofOpt (st.heightmap.read? r.1 r.2)
      let m1 := if v < m then v else m
      let mn := m1 * (99/100)
      let u := (st.uniform mn m1).1
      let st1 := (st.uniform mn m1).2
      let hm ← st1.heightmap.writeE r.1 r.2 u
      bedCarve { st1 with heightmap := hm } u rest

/-- One neighbor cell of the valley-shaping pass (rivers.py lines
311-337), with every skip condition in source order, including the
literal `[x, y] == [0, 0]` center test. -/
def valleyCellAt (st : RState) (river : List Coord) (rc : Coord) (x0 y0 : ℤ) :
    Except GenErr RState := do
  if !st.wrap && isOutOfBounds st (x0, y0) then .ok st
  else
    let x := overflow x0 st.wW
    let y := overflow y0 st.wH
    if (x, y) = ((0 : ℤ), (0 : ℤ)) then .ok st
    else if (x, y) ∈ river then .ok st
    else do
      let hr ← ofOpt (st.heightmap.read? rc.1 rc.2)
      let hxy := st.heightmap.atW x y
      if hxy ≤ hr then .ok st
      else if !inCircle 2 rc.1 rc.2 x y then .ok st
      else
        let adx := |rc.1 - x|
        let ady := |rc.2 - y|
        let curve : ℚ := if adx = 1 ∨ ady = 1 then 1/5 else if adx = 2 ∨ ady = 2 then 1/20 else 1
        let diff := hr - hxy
        let newE := hxy + diff * curve
        let newE2 := if newE ≤ hr then hxy else newE
        let hm ← st.heightmap.writeE x y newE2
        .ok { st with heightmap := hm }

/-- Inner `y` loop of the valley pass (rivers.py line 312). -/
def valleyY (river : List Coord) (rc : Coord) (x0 : ℤ) :
    RState → List ℤ → Except GenErr RState
  | st, [] => .ok st
  | st, y0 :: ys => do
      let st' ← valleyCellAt st river rc x0 y0
      valleyY river rc x0 st' ys

/-- Outer `x` loop of the valley pass (rivers.py line 311). -/
def valleyX (river : List Coord) (rc : Coord) :
    RState → List ℤ → Except GenErr RState
  | st, [] => .ok st
  | st, x0 :: xs => do
      let st' ← valleyY river rc x0 st (rangeZ (rc.2 - 2) (rc.2 + 2))
      valleyX river rc st' xs

/-- The per-river-cell loop of the valley pass (rivers.py lines
308-337), radius 2. -/
def valleyR (river : List Coord) : RState → List Coord → Except GenErr RState
  | st, [] => .ok st
  | st, rc :: rest => do
      let st' ← valleyX river rc st (rangeZ (rc.1 - 2) (rc.1 + 2))
      valleyR river st' rest

/-- `Rivers.riverErosion` (rivers.py lines 290-338): bed carving then
valley shaping. -/
def riverErosion (st : RState) (river : List Coord) : Except GenErr RState := do
  let st1 ← bedCarve st 1 river
  valleyR river st1 river

/-- The walk of `Rivers.riverMapUpdate` (rivers.py lines 342-350): the
seed cell takes its water-flow value, later cells take rainfall plus the
upstream river-map value. -/
def rmuLoop (st : RState) : Bool → Coord → Grid ℚ → List Coord → Except GenErr (Grid ℚ)
  | _, _, rm, [] => .ok rm
  | isSeed, p, rm, c :: rest =>
      if isSeed then do
        let wfg ← match st.waterFlow with
          | none => Except.error GenErr.typeError
          | some wfg => Except.ok wfg
        let v ← ofOpt (wfg.read? c.1 c.2)
        let rm' ← rm.writeE c.1 c.2 v
        rmuLoop st false c rm' rest
      else do
        let rmg ← match st.rainMap with
          | none => Except.error GenErr.typeError
          | some rmg => Except.ok rmg
        let rain ← ofOpt (rmg.read? c.1 c.2)
        let prev ← ofOpt (rm.read? p.1 p.2)
        let rm' ← rm.writeE c.1 c.2 (rain + prev)
        rmuLoop st false c rm' rest

/-- `Rivers.riverMapUpdate` (rivers.py lines 340-350). -/
def riverMapUpdate (st : RState) (river : List Coord) : Except GenErr RState := do
  let rm ← rmuLoop st true (0, 0) st.riverMap river
  .ok { st with riverMap := rm }

/-- Step three of `Rivers.generate` (rivers.py lines 67-74): trace each
source; non-empty rivers are recorded, cleaned up, and classified as
lakes when their last cell sits above sea level. -/
def traceLoop (pf : PathFinder) (fuel : ℕ) : List Coord → RState → Except GenErr RState
  | [], st => .ok st
  | src :: rest, st => do
      let out ← riverFlow pf st src fuel
      let river := out.1
      let st1 := out.2.1
      match river.getLast? with
      | none => traceLoop pf fuel rest st1
      | some rl => do
          let st2 := { st1 with riverList := st1.riverList ++ [river] }
          let hm ← cleanUpFlow st2.heightmap river
          let st3 := { st2 with heightmap := hm }
          let v ← ofOpt (hm.read? rl.1 rl.2)
          let st4 := if WGEN_SEA_LEVEL < v then { st3 with lakeList := st3.lakeList ++ [rl] } else st3
          traceLoop pf fuel rest st4

/-- Step four of `Rivers.generate` (rivers.py lines 80-82): erosion and
river-map accumulation per recorded river. -/
def erosLoop : List (List Coord) → RState → Except GenErr RState
  | [], st => .ok st
  | river :: rest, st => do
      let st1 ← riverErosion st river
      let st2 ← riverMapUpdate st1 river
      erosLoop rest st2

/-- Step five of `Rivers.generate` (rivers.py lines 88-91): mark each
lake cell with the nominal depth 0.1. -/
def lakesLoop : List Coord → RState → Except GenErr RState
  | [], st => .ok st
  | lk :: rest, st => do
      let lm ← st.lakeMap.writeE lk.1 lk.2 (1/10)
      lakesLoop rest { st with lakeMap := lm }

/-- numpy elementwise subtraction of same-shape grids (rivers.py line
95). -/
def gridSub (a b : Grid ℚ) : Grid ℚ := ⟨a.w, a.h, fun i j => a.val i j - b.val i j⟩

/-- The state set up by `Rivers.generate` lines 41-52: the heightmap is
copied, every working grid is zeroed, and `self.waterFlow` is a zeros
array (never `None`). -/
def initState (rand : ℕ → ℚ) (randN : ℕ → ℕ) (hmap : Grid ℚ) (rm : Option (Grid ℚ))
    (wrap : Bool) : RState :=
  { inputH := hmap, heightmap := hmap,
    riverMap := zerosG hmap.w hmap.h 0, lakeMap := zerosG hmap.w hmap.h 0,
    erosionMap := zerosG hmap.w hmap.h 0, waterPath := zerosG hmap.w hmap.h 0,
    waterFlow := some (zerosG hmap.w hmap.h 0), rainMap := rm,
    lakeList := [], riverList := [], wrap := wrap, rand := rand, randN := randN, ridx := 0 }

/-- `Rivers.generate` (rivers.py lines 34-102): the six pipeline steps
(progress-bar reporting omitted — it is a side channel). -/
def generate (pf : PathFinder) (rand : ℕ → ℚ) (randN : ℕ → ℕ) (hmap : Grid ℚ)
    (rm : Option (Grid ℚ)) (wrap : Bool) (fuel : ℕ) : Except GenErr RState := do
  let st1 ← findWaterFlow (initState rand randN hmap rm wrap)
  let srcOut ← riverSources st1 fuel
  let st3 ← traceLoop pf fuel srcOut.1 srcOut.2
  let st4 ← erosLoop st3.riverList st3
  let st5 ← lakesLoop st4.lakeList st4
  .ok { st5 with erosionMap := gridSub st5.inputH st5.heightmap }

/-- A trivial injected pathfinder: never finds a route. -/
def pfNone : PathFinder := fun _ _ _ => []

/-- Extract the success value of an embedded computation, with a
default. -/
def getOkD (e : Except GenErr α) (d : α) : α :=
  match e with
  | .ok a => a
  | .error _ => d

/-- Whether an embedded computation succeeded. -/
def isOkb (e : Except GenErr α) : Bool :=
  match e with
  | .ok _ => true
  | .error _ => false

/-- Equality of all run state except the heightmap and the random-stream
position: what the erosion passes may touch. -/
def SameButH (st' st : RState) : Prop :=
  st'.inputH = st.inputH ∧ st'.riverMap = st.riverMap ∧ st'.lakeMap = st.lakeMap ∧
  st'.erosionMap = st.erosionMap ∧ st'.waterPath = st.waterPath ∧
  st'.waterFlow = st.waterFlow ∧ st'.rainMap = st.rainMap ∧
  st'.lakeList = st.lakeList ∧ st'.riverList = st.riverList ∧
  st'.wrap = st.wrap ∧ st'.rand = st.rand ∧ st'.randN = st.randN

/-- The spec's clean-up post-condition: along the river's coordinate
sequence the (current) heightmap elevations are non-increasing at every
adjacent pair of positions. -/
def NonIncAlong (g : Grid ℚ) (river : List Coord) : Prop :=
  ∀ i p q a b, river.get? i = some p → river.get? (i + 1) = some q →
    g.read? p.1 p.2 = some a → g.read? q.1 q.2 = some b → b ≤ a

/-- The spec's exclusion property for accumulation-strategy sources:
every pair of recorded sources is more than 81 apart in squared
distance. -/
def FarApart (l : List Coord) : Prop := l.Pairwise fun a b => 81 < sqDist a b

/-- A throwaway state used as `getOkD` default. -/
def dummyState : RState := mkState (zerosG 0 0 0)

/-- 2×2 heightmap, constant 0.5 — the failing input for a run without a
rain map. -/
def hC1 : Grid ℚ := ⟨2, 2, fun _ _ => 1/2⟩

/-- 3×1 heightmap with elevations 0.5, 0.4, 0.1. -/
def gC3 : Grid ℚ := ⟨3, 1, fun a _ => if a = 0 then 1/2 else if a = 1 then 2/5 else 1/10⟩

/-- A river sequence revisiting its first cell: a, b, c, a. -/
def riverC3 : List Coord := [(0, 0), (1, 0), (2, 0), (0, 0)]

/-- What `cleanUpFlow` makes of `gC3` along `riverC3`: only the final
revisit of (0,0) is forced down to the running minimum 0.1. -/
def gC3' : Grid ℚ := gC3.writeW 0 0 (1/10)

/-- A duplicate-free river on `gC3`. -/
def riverC3nd : List Coord := [(0, 0), (1, 0), (2, 0)]

/-- 3×3 heightmap ramp: column 0 at 0.6 (hill band), column 1 at 0.3,
column 2 at 0.1 (below sea level). -/
def hC4 : Grid ℚ := ⟨3, 3, fun a _ => if a = 0 then 3/5 else if a = 1 then 3/10 else 1/10⟩

/-- Uniform heavy rainfall (12 per cell) over the 3×3 ramp. -/
def rmC4 : Grid ℚ := ⟨3, 3, fun _ _ => 12⟩

/-- 4×4 constant heightmap with one already-traced river; the source
(1,0) has wrapped neighbor (1,3) inside that river. -/
def stC8 : RState :=
  { mkState ⟨4, 4, fun _ _ => 9/10⟩ with riverList := [[(1, 2), (1, 3)]] }

/-- Invariant of the `findQuickPath` fold: the tracked elevation never
exceeds the cell's own, and a recorded candidate is an unresolved
4-connected neighbor whose wrapped elevation is the tracked one,
strictly below the cell's own. -/
def FQInv (st : RState) (c : Coord) (h0 : ℚ) (acc : Option Coord × ℚ) : Prop :=
  acc.2 ≤ h0 ∧
    (acc.1 = none ∧ acc.2 = h0 ∨
      ∃ d, d ∈ DIR_NEIGHBORS ∧ acc.1 = some (c.1 + d.1, c.2 + d.2) ∧
        acc.2 = st.heightmap.atW (c.1 + d.1) (c.2 + d.2) ∧ acc.2 < h0)

/-- C5's flow-direction invariant: every cell of the grid either records
no direction (key 0) or a 4-connected offset whose (wrapped) neighbor is
strictly lower than the cell. -/
def FlowGood (hm : Grid ℚ) (wp : Grid ℕ) : Prop :=
  ∀ a b, wp.val a b = 0 ∨
    ∃ d, DIR_NEIGHBORS_CENTER.get? (wp.val a b) = some d ∧ d ∈ DIR_NEIGHBORS ∧
      hm.atW (a + d.1) (b + d.2) < hm.atW a b


/-- The generate-initialized state on the 3×3 ramp with heavy rain. -/
def c5st : RState := initState (fun _ => 0) (fun _ => 0) hC4 (some rmC4) true

/-- The state after `findWaterFlow` on `c5st`. -/
def c5st' : RState := getOkD (findWaterFlow c5st) dummyState

/-- 2×2 heightmap: column 0 in the hill band (0.6), column 1 low
(0.1). -/
def hC7 : Grid ℚ := ⟨2, 2, fun a _ => if a = 0 then 3/5 else 1/10⟩

/-- Uniform heavy rainfall (12 per cell) over `hC7`. -/
def rmC7 : Grid ℚ := ⟨2, 2, fun _ _ => 12⟩

/-- 2×2 heightmap for the full-run witness: 0.6 at (0,0) (hill band),
0.1 at (1,0) (below sea), 0.05 elsewhere — the traced river crosses the
wrap seam to (0,-1) and the valley pass touches few cells. -/
def hCg : Grid ℚ :=
  ⟨2, 2, fun a b => if a = 0 ∧ b = 0 then 3/5 else if a = 1 ∧ b = 0 then 1/10 else 1/20⟩

/-- The generate-initialized, flow-computed state on `hC7`. -/
def c7st : RState :=
  getOkD (findWaterFlow (initState (fun _ => 0) (fun _ => 0) hC7 (some rmC7) true))
    dummyState

/-- The sources-and-state result of the accumulation strategy on
`c7st`. -/
def c7out : List Coord × RState := getOkD (riverSources c7st 9) ([], dummyState)

/-- The river traced on `hC7`, used by the erosion witness. -/
def rivC9 : List Coord := [(0, 0), (1, 0)]

/-- First erosion pass over `rivC9` on the fresh `hC7` state. -/
def c9st1 : RState := getOkD (riverErosion (mkState hC7) rivC9) dummyState

/-- Second erosion pass over the same path. -/
def c9st2 : RState := getOkD (riverErosion c9st1 rivC9) dummyState

/-- C4's disjunction for one recorded river: its final coordinate reads
at or below sea level in the current heightmap, or appears in the lake
list. -/
def Classified (river : List Coord) (st : RState) : Prop :=
  ∃ rl, river.getLast? = some rl ∧
    ((∃ v, st.heightmap.read? rl.1 rl.2 = some v ∧ v ≤ WGEN_SEA_LEVEL) ∨
      rl ∈ st.lakeList)

/-- The step-three loop invariant: nonnegative heights and every
recorded river classified. -/
def TraceInv (st : RState) : Prop :=
  st.heightmap.Nonneg ∧ ∀ river ∈ st.riverList, Classified river st

/-- The state a no-rain-map run reaches just before source finding:
`generate`'s initialization plus `findWaterFlow`, on the 2×2 constant
heightmap. -/
def stC2 : RState :=
  getOkD (findWaterFlow (initState (fun _ => 0) (fun _ => 0) hC1 none true)) dummyState

/-- The final state of a full concrete run: 2×2 heightmap `hCg`, heavy
rain `rmC7`, wrap mode. -/
def cGen : RState :=
  getOkD (generate pfNone (fun _ => 0) (fun _ => 0) hCg (some rmC7) true 9) dummyState

/-- Snapshot after step two (`findWaterFlow`) of the `hCg` run: only
(0,0) gains a flow direction — key 1, the offset (0,-1) across the wrap
seam. -/
def stA : RState :=
  { inputH := hCg, heightmap := hCg,
    riverMap := zerosG 2 2 0, lakeMap := zerosG 2 2 0,
    erosionMap := zerosG 2 2 0, waterPath := (zerosG 2 2 0).writeW 0 0 1,
    waterFlow := some (zerosG 2 2 0), rainMap := some rmC7,
    lakeList := [], riverList := [], wrap := true,
    rand := fun _ => 0, randN := fun _ => 0, ridx := 0 }

/-- Snapshot after `riverSources` on `stA`: (0,0) seeds with its 12 units
of rain and is immediately recorded as a source. -/
def stB : RState := { stA with waterFlow := some ((zerosG 2 2 0).writeW 0 0 12) }

/-- Snapshot after the trace loop on `stB`: one river from (0,0) across
the seam to (0,-1), ending below sea level; clean-up writes nothing. -/
def stC : RState := { stB with riverList := [[((0 : ℤ), (0 : ℤ)), ((0 : ℤ), (-1 : ℤ))]] }

/-- The `hCg` heightmap after the erosion pass: the two bed cells are
carved to 99% of their running minimum, and the valley pass pulls the
one higher in-circle neighbor (1,0) down four times. -/
def hmD : Grid ℚ :=
  (((((hCg.writeW 0 0 (297/500)).writeW 0 (-1) (99/2000)).writeW 1 0
    (899/10000)).writeW 1 0 (4091/50000)).writeW 1 0 (18839/250000)).writeW 1 0
    (87731/1250000)

/-- The river map after `riverMapUpdate`: the seed takes its water-flow
value 12, the next cell adds its rain to the upstream value. -/
def rmD : Grid ℚ := ((zerosG 2 2 0).writeW 0 0 12).writeW 0 (-1) 24

/-- Snapshot after the erosion loop on `stC`: carved heightmap, updated
river map, two random draws consumed. -/
def stD : RState := { stC with heightmap := hmD, riverMap := rmD, ridx := 2 }

theorem getOkD_eq {e : Except GenErr α} (d : α) (h : isOkb e = true) :
    e = .ok (getOkD e d) := by
  cases e with
  | ok a => rfl
  | error err => simp [isOkb] at h

theorem writeW_w (g : Grid α) (x y : ℤ) (v : α) : (g.writeW x y v).w = g.w := rfl

theorem writeW_h (g : Grid α) (x y : ℤ) (v : α) : (g.writeW x y v).h = g.h := rfl

theorem res_writeW (g : Grid α) (x y : ℤ) (v : α) (a b : ℤ) :
    (g.writeW x y v).res a b = g.res a b := rfl

theorem atW_writeW (g : Grid α) (x y : ℤ) (v : α) (a b : ℤ) :
    (g.writeW x y v).atW a b = if g.res a b = g.res x y then v else g.atW a b := by
  show (if ((g.res a b).1, (g.res a b).2) = g.res x y then v else g.val (g.res a b).1 (g.res a b).2)
      = _
  rw [Prod.mk.eta]
  rfl

theorem read?_eq_some_iff {g : Grid α} {x y : ℤ} {v : α} :
    g.read? x y = some v ↔ g.InR x y ∧ g.atW x y = v := by
  unfold Grid.read?
  split
  · simp_all
  · simp_all

theorem read?_writeW_of_ne {g : Grid α} {x y a b : ℤ} (v : α)
    (hne : g.res a b ≠ g.res x y) : (g.writeW x y v).read? a b = g.read? a b := by
  unfold Grid.read?
  by_cases hin : g.InR a b
  · rw [if_pos hin, if_pos (show (g.writeW x y v).InR a b from hin)]
    rw [atW_writeW, if_neg hne]
  · rw [if_neg hin, if_neg (show ¬ (g.writeW x y v).InR a b from hin)]

theorem read?_writeW_same {g : Grid α} {x y a b : ℤ} (v : α)
    (hin : g.InR a b) (heq : g.res a b = g.res x y) :
    (g.writeW x y v).read? a b = some v := by
  unfold Grid.read?
  rw [if_pos (show (g.writeW x y v).InR a b from hin)]
  rw [atW_writeW, if_pos heq]

theorem read?_writeW_isSome {g : Grid α} (x y : ℤ) (v : α) (a b : ℤ) :
    ((g.writeW x y v).read? a b).isSome = (g.read? a b).isSome := by
  unfold Grid.read?
  by_cases hin : g.InR a b
  · rw [if_pos hin, if_pos (show (g.writeW x y v).InR a b from hin)]
    rfl
  · rw [if_neg hin, if_neg (show ¬ (g.writeW x y v).InR a b from hin)]

theorem below_refl (g : Grid ℚ) : g.Below g := ⟨rfl, rfl, fun _ _ => le_rfl⟩

theorem below_trans {g3 g2 g1 : Grid ℚ} (h32 : g3.Below g2) (h21 : g2.Below g1) :
    g3.Below g1 :=
  ⟨h32.1.trans h21.1, h32.2.1.trans h21.2.1,
    fun a b => (h32.2.2 a b).trans (h21.2.2 a b)⟩

theorem below_writeW {g : Grid ℚ} {x y : ℤ} {v : ℚ} (h : v ≤ g.atW x y) :
    (g.writeW x y v).Below g := by
  refine ⟨rfl, rfl, fun a b => ?_⟩
  show (if (a, b) = g.res x y then v else g.val a b) ≤ g.val a b
  split
  · rename_i heq
    unfold Grid.res overflow at heq
    injection heq with h1 h2
    subst h1; subst h2
    exact h
  · exact le_rfl

theorem nonneg_writeW {g : Grid ℚ} (hg : g.Nonneg) {v : ℚ} (hv : 0 ≤ v) (x y : ℤ) :
    (g.writeW x y v).Nonneg := by
  intro a b
  show 0 ≤ if (a, b) = g.res x y then v else g.val a b
  split
  · exact hv
  · exact hg a b

theorem nonneg_atW {g : Grid ℚ} (hg : g.Nonneg) (x y : ℤ) : 0 ≤ g.atW x y := hg _ _

theorem below_read? {g' g : Grid ℚ} (hb : g'.Below g) {x y : ℤ} {v : ℚ}
    (h : g.read? x y = some v) : ∃ v', g'.read? x y = some v' ∧ v' ≤ v := by
  obtain ⟨hw, hh, hv⟩ := hb
  obtain ⟨hin, hat⟩ := read?_eq_some_iff.mp h
  have hres : g'.res = g.res := by
    unfold Grid.res; rw [hw, hh]
  have hin' : g'.InR x y := by
    unfold Grid.InR at hin ⊢; rw [hw, hh]; exact hin
  refine ⟨g'.atW x y, read?_eq_some_iff.mpr ⟨hin', rfl⟩, ?_⟩
  calc g'.atW x y = g'.val (g.res x y).1 (g.res x y).2 := by unfold Grid.atW; rw [hres]
    _ ≤ g.val (g.res x y).1 (g.res x y).2 := hv _ _
    _ = v := hat

theorem read?_isSome_of_below {g' g : Grid ℚ} (hb : g'.Below g) {x y : ℤ}
    (h : (g.read? x y).isSome = true) : (g'.read? x y).isSome = true := by
  cases hv : g.read? x y with
  | none => rw [hv] at h; simp at h
  | some v =>
      obtain ⟨v', hv', _⟩ := below_read? hb hv
      rw [hv']; rfl

theorem nonIncAlong_cons {g : Grid ℚ} {r : Coord} {rest : List Coord}
    (h0 : ∀ q a b, rest.head? = some q → g.read? r.1 r.2 = some a →
      g.read? q.1 q.2 = some b → b ≤ a)
    (h1 : NonIncAlong g rest) : NonIncAlong g (r :: rest) := by
  intro i p q a b hp hq hra hrb
  cases i with
  | zero =>
      rw [List.get?_cons_zero] at hp
      rw [List.get?_cons_succ] at hq
      cases hp
      exact h0 q a b (by rwa [← List.get?_zero]) hra hrb
  | succ n =>
      rw [List.get?_cons_succ] at hp hq
      exact h1 n p q a b hp hq hra hrb

theorem cleanUpAux_dims {l : List Coord} : ∀ {g : Grid ℚ} {cel : ℚ} {g' : Grid ℚ},
    cleanUpAux g cel l = .ok g' → g'.w = g.w ∧ g'.h = g.h := by
  induction l with
  | nil =>
      intro g cel g' h
      unfold cleanUpAux at h
      cases h
      exact ⟨rfl, rfl⟩
  | cons r rest ih =>
      intro g cel g' h
      unfold cleanUpAux at h
      cases hr : g.read? r.1 r.2 with
      | none => rw [hr] at h; dsimp only at h; cases h
      | some rel =>
          rw [hr] at h
          dsimp only at h
          by_cases hle : rel ≤ cel
          · rw [if_pos hle] at h
            exact ih h
          · rw [if_neg hle] at h
            have hd := ih h
            exact hd

theorem cleanUpAux_frame {l : List Coord} : ∀ {g : Grid ℚ} {cel : ℚ} {g' : Grid ℚ} {c : Coord},
    cleanUpAux g cel l = .ok g' →
    (∀ r ∈ l, g.res c.1 c.2 ≠ g.res r.1 r.2) →
    g'.read? c.1 c.2 = g.read? c.1 c.2 := by
  induction l with
  | nil =>
      intro g cel g' c h _
      unfold cleanUpAux at h
      cases h
      rfl
  | cons r rest ih =>
      intro g cel g' c h hne
      unfold cleanUpAux at h
      cases hr : g.read? r.1 r.2 with
      | none => rw [hr] at h; dsimp only at h; cases h
      | some rel =>
          rw [hr] at h
          dsimp only at h
          by_cases hle : rel ≤ cel
          · rw [if_pos hle] at h
            exact ih h fun s hs => hne s (List.mem_cons_of_mem _ hs)
          · rw [if_neg hle] at h
            have := ih h (fun s hs => hne s (List.mem_cons_of_mem _ hs))
            rw [this]
            exact read?_writeW_of_ne _ (hne r (List.mem_cons_self _ _))

theorem cleanUpAux_below {l : List Coord} : ∀ {g : Grid ℚ} {cel : ℚ} {g' : Grid ℚ},
    cleanUpAux g cel l = .ok g' → g'.Below g := by
  induction l with
  | nil =>
      intro g cel g' h
      unfold cleanUpAux at h
      cases h
      exact below_refl _
  | cons r rest ih =>
      intro g cel g' h
      unfold cleanUpAux at h
      cases hr : g.read? r.1 r.2 with
      | none => rw [hr] at h; dsimp only at h; cases h
      | some rel =>
          rw [hr] at h
          dsimp only at h
          by_cases hle : rel ≤ cel
          · rw [if_pos hle] at h
            exact ih h
          · rw [if_neg hle] at h
            have hrel := (read?_eq_some_iff.mp hr).2
            have hbw : (g.writeW r.1 r.2 cel).Below g := by
              refine below_writeW ?_
              rw [hrel]
              exact le_of_lt (lt_of_not_le hle)
            exact below_trans (ih h) hbw

theorem cleanUpAux_nonneg {l : List Coord} : ∀ {g : Grid ℚ} {cel : ℚ} {g' : Grid ℚ},
    cleanUpAux g cel l = .ok g' → g.Nonneg → 0 ≤ cel → g'.Nonneg := by
  induction l with
  | nil =>
      intro g cel g' h hg _
      unfold cleanUpAux at h
      cases h
      exact hg
  | cons r rest ih =>
      intro g cel g' h hg hc
      unfold cleanUpAux at h
      cases hr : g.read? r.1 r.2 with
      | none => rw [hr] at h; dsimp only at h; cases h
      | some rel =>
          rw [hr] at h
          dsimp only at h
          have hrel : 0 ≤ rel := by
            have := (read?_eq_some_iff.mp hr).2
            rw [← this]
            exact nonneg_atW hg _ _
          by_cases hle : rel ≤ cel
          · rw [if_pos hle] at h
            exact ih h hg hrel
          · rw [if_neg hle] at h
            exact ih h (nonneg_writeW hg hc _ _) hc

theorem cleanUpAux_spec {l : List Coord} : ∀ {g : Grid ℚ} {cel : ℚ} {g' : Grid ℚ},
    cleanUpAux g cel l = .ok g' →
    (l.map fun r => g.res r.1 r.2).Nodup →
    NonIncAlong g' l ∧
      (∀ p, l.head? = some p → ∃ v, g'.read? p.1 p.2 = some v ∧ v ≤ cel) ∧
      (∀ p ∈ l, (g'.read? p.1 p.2).isSome = true) := by
  induction l with
  | nil =>
      intro g cel g' h _
      refine ⟨?_, ?_, ?_⟩
      · intro i p q a b hp
        rw [List.get?_nil] at hp
        cases hp
      · intro p hp
        rw [List.head?_nil] at hp
        cases hp
      · intro p hp
        cases hp
  | cons r rest ih =>
      intro g cel g' h hnd
      unfold cleanUpAux at h
      cases hr : g.read? r.1 r.2 with
      | none => rw [hr] at h; dsimp only at h; cases h
      | some rel =>
          rw [hr] at h
          dsimp only at h
          rw [List.map_cons, List.nodup_cons] at hnd
          obtain ⟨hnotmem, hndrest⟩ := hnd
          have hfar : ∀ s ∈ rest, g.res r.1 r.2 ≠ g.res s.1 s.2 := by
            intro s hs heq
            exact hnotmem (heq ▸ List.mem_map_of_mem _ hs)
          by_cases hle : rel ≤ cel
          · rw [if_pos hle] at h
            obtain ⟨ihA, ihB, ihC⟩ := ih h hndrest
            have hframe : g'.read? r.1 r.2 = some rel := by
              rw [cleanUpAux_frame h hfar]
              exact hr
            refine ⟨?_, ?_, ?_⟩
            · refine nonIncAlong_cons ?_ ihA
              intro q a b hq hra hrb
              obtain ⟨v, hv, hvle⟩ := ihB q hq
              rw [hframe] at hra
              rw [hv] at hrb
              cases hra; cases hrb
              exact hvle
            · intro p hp
              rw [List.head?_cons] at hp
              cases hp
              exact ⟨rel, hframe, hle⟩
            · intro p hp
              rcases List.mem_cons.mp hp with hp | hp
              · subst hp
                rw [hframe]
                rfl
              · exact ihC p hp
          · rw [if_neg hle] at h
            have hin : g.InR r.1 r.2 := (read?_eq_some_iff.mp hr).1
            have hread1 : (g.writeW r.1 r.2 cel).read? r.1 r.2 = some cel :=
              read?_writeW_same _ hin rfl
            obtain ⟨ihA, ihB, ihC⟩ := ih h hndrest
            have hframe : g'.read? r.1 r.2 = some cel := by
              rw [cleanUpAux_frame h hfar]
              exact hread1
            refine ⟨?_, ?_, ?_⟩
            · refine nonIncAlong_cons ?_ ihA
              intro q a b hq hra hrb
              obtain ⟨v, hv, hvle⟩ := ihB q hq
              rw [hframe] at hra
              rw [hv] at hrb
              cases hra; cases hrb
              exact hvle
            · intro p hp
              rw [List.head?_cons] at hp
              cases hp
              exact ⟨cel, hframe, le_rfl⟩
            · intro p hp
              rcases List.mem_cons.mp hp with hp | hp
              · subst hp
                rw [hframe]
                rfl
              · exact ihC p hp

/-- C3 (amended): for every river whose coordinate sequence visits no
storage cell twice, after `cleanUpFlow` completes the heightmap
elevations along the sequence are non-increasing from source to
terminus.  The original claim, which included sequences revisiting a
cell, fails on the code. -/
theorem cleanUpFlow_nonincreasing_of_nodup {g : Grid ℚ} {river : List Coord} {g' : Grid ℚ}
    (hok : cleanUpFlow g river = .ok g')
    (hnd : (river.map fun r => g.res r.1 r.2).Nodup) :
    NonIncAlong g' river :=
  (cleanUpAux_spec hok hnd).1

/-- Witness for the amended C3 on a concrete descending river. -/
theorem cleanUpFlow_nonincreasing_witness :
    cleanUpFlow gC3 riverC3nd = .ok gC3 ∧
    (riverC3nd.map fun r => gC3.res r.1 r.2).Nodup ∧
    NonIncAlong gC3 riverC3nd := by
  have hnd : (riverC3nd.map fun r => gC3.res r.1 r.2).Nodup := by decide
  have hok : cleanUpFlow gC3 riverC3nd = .ok gC3 := by
    norm_num [cleanUpFlow, cleanUpAux, gC3, riverC3nd, Grid.read?, Grid.InR, Grid.atW,
      Grid.res, Grid.writeW, overflow]
  exact ⟨hok, hnd, cleanUpFlow_nonincreasing_of_nodup hok hnd⟩

/-- C3 counterexample: on `gC3` the sequence `riverC3` revisits its
first cell; after `cleanUpFlow` the elevation at position 0 (0.1) is
smaller than at position 1 (0.4), so elevations along the sequence are
not non-increasing. -/
theorem cleanUpFlow_revisit_cex :
    cleanUpFlow gC3 riverC3 = .ok gC3' ∧
    gC3'.read? 0 0 = some (1/10) ∧
    gC3'.read? 1 0 = some (2/5) ∧
    ¬ NonIncAlong gC3' riverC3 := by
  have h1 : gC3'.read? 0 0 = some (1/10) := by
    norm_num [gC3', gC3, Grid.read?, Grid.InR, Grid.atW, Grid.res, Grid.writeW, overflow]
  have h2 : gC3'.read? 1 0 = some (2/5) := by
    norm_num [gC3', gC3, Grid.read?, Grid.InR, Grid.atW, Grid.res, Grid.writeW, overflow]
  refine ⟨?_, h1, h2, ?_⟩
  · norm_num [cleanUpFlow, cleanUpAux, gC3, gC3', riverC3, Grid.read?, Grid.InR, Grid.atW,
      Grid.res, Grid.writeW, overflow]
  · intro hni
    have hcon := hni 0 (0, 0) (1, 0) (1/10) (2/5) rfl rfl h1 h2
    norm_num at hcon

/-- C6 (code bug): in wrap mode `findQuickPath` returns the *unwrapped*
winning coordinate; from (2,1) on the 3×3 map `gTest` it returns (3,1),
an out-of-range index, and `riverFlow` appends it to the path and then
crashes (IndexError) reading the heightmap there on the next step. -/
theorem findQuickPath_out_of_range :
    findQuickPath (mkState gTest) (2, 1) = .ok (some (3, 1)) ∧
    isOutOfBounds (mkState gTest) (3, 1) = true ∧
    riverFlow pfNone (mkState gTest) (2, 1) 5 = .error .indexError := by
  refine ⟨?_, by decide, ?_⟩
  · norm_num [findQuickPath, fqStep, mkState, gTest, Grid.read?, Grid.atW, Grid.res, Grid.InR,
      overflow, RState.wW, RState.wH, ofOpt, DIR_NEIGHBORS, isOutOfBounds, bind,
      Except.bind, pure, Except.pure]
  · norm_num [riverFlow, riverFlowAux, mergeScanDirs, scanRivers, findQuickPath, fqStep,
      mkState, gTest, Grid.read?, Grid.atW, Grid.res, Grid.InR, overflow, RState.wW,
      RState.wH, ofOpt, DIR_NEIGHBORS, isOutOfBounds, WGEN_SEA_LEVEL, bind, Except.bind,
      pure, Except.pure]

/-- C1 (code bug): a run with no rain map crashes for every pathfinder,
random stream and fuel: `riverSources` always takes the rainfall branch
(the guard tests `waterFlow`, which `generate` just set to an array, not
the rain map) and subscripts `None`. -/
theorem generate_no_rainmap_typeError :
    ∀ (pf : PathFinder) (rand : ℕ → ℚ) (randN : ℕ → ℕ) (fuel : ℕ),
      generate pf rand randN hC1 none true fuel = .error .typeError := by
  intro pf rand randN fuel
  norm_num [generate, initState, findWaterFlow, fwColX, fwRowY, fwCell, findQuickPath, fqStep,
    riverSources, riverSourcesV2, srcV2X, srcV2Y, srcV2Cell, hC1, zerosG, Grid.read?,
    Grid.atW, Grid.res, Grid.InR, Grid.writeE, Grid.writeW, overflow, RState.wW, RState.wH,
    rangeZ, ofOpt, DIR_NEIGHBORS, DIR_NEIGHBORS_CENTER, isOutOfBounds, List.range_succ,
    bind, Except.bind, pure, Except.pure]

/-- C2 (code bug): the strategy dispatch tests `self.waterFlow is None`,
not the rain map.  `generate` always sets `waterFlow` to an array, so on
every generate-initialized state the accumulation strategy runs — and
with no rain map it crashes subscripting `None` instead of using the
stochastic per-tile strategy. -/
theorem riverSources_selection_ignores_rainmap :
    (∀ (rand : ℕ → ℚ) (randN : ℕ → ℕ) (hmap : Grid ℚ) (rm : Option (Grid ℚ)) (wrap : Bool),
        (initState rand randN hmap rm wrap).waterFlow.isSome = true) ∧
    (∀ (st : RState) (wf0 : Grid ℚ) (fuel : ℕ), st.waterFlow = some wf0 →
        riverSources st fuel = riverSourcesV2 st wf0 fuel) ∧
    (∀ (st : RState) (fuel : ℕ), st.waterFlow = none →
        riverSources st fuel = riverSourcesV1 st) ∧
    stC2.rainMap = none ∧
    riverSources stC2 9 = .error .typeError := by
  refine ⟨fun _ _ _ _ _ => rfl, ?_, ?_, ?_, ?_⟩
  · intro st wf0 fuel h
    unfold riverSources
    rw [h]
  · intro st fuel h
    unfold riverSources
    rw [h]
  · norm_num [stC2, getOkD, initState, findWaterFlow, fwColX, fwRowY, fwCell,
      findQuickPath, fqStep, hC1, zerosG, Grid.read?, Grid.atW, Grid.res, Grid.InR, overflow,
      RState.wW, RState.wH, rangeZ, ofOpt, DIR_NEIGHBORS, DIR_NEIGHBORS_CENTER,
      isOutOfBounds, List.range_succ, bind, Except.bind, pure, Except.pure]
  · norm_num [stC2, getOkD, initState, findWaterFlow, fwColX, fwRowY, fwCell,
      findQuickPath, fqStep, riverSources, riverSourcesV2, srcV2X, srcV2Y, srcV2Cell, hC1,
      zerosG, Grid.read?, Grid.atW, Grid.res, Grid.InR, Grid.writeE, Grid.writeW,
      overflow, RState.wW, RState.wH, rangeZ, ofOpt, DIR_NEIGHBORS, DIR_NEIGHBORS_CENTER,
      isOutOfBounds, List.range_succ, bind, Except.bind, pure, Except.pure]

theorem scanRivers_spec {n : Coord} : ∀ {rl : List (List Coord)} {riv : List Coord},
    scanRivers n rl = some riv → riv ∈ rl ∧ n ∈ riv := by
  intro rl
  induction rl with
  | nil => intro riv h; cases h
  | cons r rest ih =>
      intro riv h
      unfold scanRivers at h
      by_cases hm : n ∈ r
      · rw [if_pos hm] at h
        cases h
        exact ⟨List.mem_cons_self _ _, hm⟩
      · rw [if_neg hm] at h
        obtain ⟨h1, h2⟩ := ih h
        exact ⟨List.mem_cons_of_mem _ h1, h2⟩

theorem mergeScanDirs_spec {st : RState} {c : Coord} :
    ∀ {ds : List (ℤ × ℤ)} {riv : List Coord} {hit : Coord},
    mergeScanDirs st c ds = some (riv, hit) → riv ∈ st.riverList ∧ hit ∈ riv := by
  intro ds
  induction ds with
  | nil => intro riv hit h; cases h
  | cons d rest ih =>
      intro riv hit h
      unfold mergeScanDirs at h
      dsimp only at h
      cases hs : scanRivers
          (if st.wrap then (overflow (c.1 + d.1) st.wW, overflow (c.2 + d.2) st.wH)
            else (c.1 + d.1, c.2 + d.2)) st.riverList with
      | some riv' =>
          rw [hs] at h
          dsimp only at h
          cases h
          exact scanRivers_spec hs
      | none =>
          rw [hs] at h
          dsimp only at h
          exact ih h

theorem mergeTail_ne_nil {hit : Coord} : ∀ {riv : List Coord},
    hit ∈ riv → mergeTail hit riv ≠ [] := by
  intro riv
  induction riv with
  | nil => intro hm; cases hm
  | cons r rest ih =>
      intro hm
      unfold mergeTail
      by_cases he : r = hit
      · rw [if_pos he]
        simp
      · rw [if_neg he]
        refine ih ?_
        rcases List.mem_cons.mp hm with h | h
        · exact absurd h.symm he
        · exact h

theorem mergeTail_getLast? {hit : Coord} : ∀ {riv : List Coord},
    hit ∈ riv → (mergeTail hit riv).getLast? = riv.getLast? := by
  intro riv
  induction riv with
  | nil => intro hm; cases hm
  | cons r rest ih =>
      intro hm
      unfold mergeTail
      by_cases he : r = hit
      · rw [if_pos he]
      · rw [if_neg he]
        have hm' : hit ∈ rest := by
          rcases List.mem_cons.mp hm with h | h
          · exact absurd h.symm he
          · exact h
        rw [ih hm']
        cases rest with
        | nil => cases hm'
        | cons b l => rw [List.getLast?_cons_cons]

/-- C8: whenever `riverFlow` exits through the merge branch, the merged
path ends exactly where the existing river ends, and carries that
river's coordinates from the matching point onward as a suffix. -/
theorem riverFlow_merge_suffix {pf : PathFinder} :
    ∀ {fuel : ℕ} {st : RState} {c : Coord} {path : List Coord}
      {out : List Coord × RState × FlowExit},
      riverFlowAux pf st c path fuel = .ok out →
      ∀ {riv : List Coord} {hit : Coord}, out.2.2 = FlowExit.merged riv hit →
      riv ∈ st.riverList ∧ hit ∈ riv ∧
      out.1.getLast? = riv.getLast? ∧
      ∃ pre, out.1 = pre ++ mergeTail hit riv := by
  intro fuel
  induction fuel with
  | zero => intro st c path out h; cases h
  | succ n ih =>
      intro st c path out h riv hit heq
      unfold riverFlowAux at h
      cases hm : mergeScanDirs st c DIR_NEIGHBORS with
      | some pr =>
          obtain ⟨riv', hit'⟩ := pr
          rw [hm] at h
          dsimp only at h
          cases h
          dsimp only at heq
          injection heq with h1 h2
          subst h1; subst h2
          obtain ⟨hmem, hhit⟩ := mergeScanDirs_spec hm
          refine ⟨hmem, hhit, ?_, path, rfl⟩
          rw [List.getLast?_append_of_ne_nil _ (mergeTail_ne_nil hhit)]
          exact mergeTail_getLast? hhit
      | none =>
          rw [hm] at h
          dsimp only at h
          cases hrd : st.heightmap.read? c.1 c.2 with
          | none => rw [hrd] at h; dsimp only [ofOpt, bind, Except.bind] at h; cases h
          | some hxy =>
              rw [hrd] at h
              dsimp only [ofOpt, bind, Except.bind] at h
              by_cases hsea : hxy ≤ WGEN_SEA_LEVEL
              · rw [if_pos hsea] at h
                cases h
                cases heq
              · rw [if_neg hsea] at h
                cases hq : findQuickPath st c with
                | error e => rw [hq] at h; dsimp only [bind, Except.bind] at h; cases h
                | ok q =>
                    rw [hq] at h
                    dsimp only [bind, Except.bind] at h
                    cases q with
                    | some nxt =>
                        dsimp only at h
                        exact ih h heq
                    | none =>
                        dsimp only at h
                        cases hf : findLowerElevation st c with
                        | error e =>
                            rw [hf] at h; dsimp only [bind, Except.bind] at h; cases h
                        | ok fle =>
                            rw [hf] at h
                            dsimp only [bind, Except.bind] at h
                            obtain ⟨isW, dopt⟩ := fle
                            cases dopt with
                            | some d =>
                                cases isW with
                                | false =>
                                    dsimp only at h
                                    by_cases hlp : pf st.heightmap c d = []
                                    · rw [dif_pos hlp] at h
                                      cases h
                                      cases heq
                                    · rw [dif_neg hlp] at h
                                      exact ih h heq
                                | true =>
                                    dsimp only at h
                                    exact ih h heq
                            | none =>
                                dsimp only at h
                                cases h
                                cases heq

/-- Witness for C8: on `stC8` the trace from (1,0) immediately merges
into the existing river through the wrapped neighbor (1,3). -/
theorem riverFlow_merge_witness :
    riverFlow pfNone stC8 (1, 0) 5 =
      .ok ([(1, 0), (1, 3)], stC8, .merged [(1, 2), (1, 3)] (1, 3)) ∧
    (([(1, 2), (1, 3)] : List Coord) ∈ stC8.riverList ∧
      ((1, 3) : Coord) ∈ ([(1, 2), (1, 3)] : List Coord) ∧
      ([(1, 0), (1, 3)] : List Coord).getLast? =
        ([(1, 2), (1, 3)] : List Coord).getLast? ∧
      ∃ pre, ([(1, 0), (1, 3)] : List Coord) = pre ++ mergeTail (1, 3) [(1, 2), (1, 3)]) := by
  have heq : riverFlow pfNone stC8 (1, 0) 5 =
      .ok ([(1, 0), (1, 3)], stC8, .merged [(1, 2), (1, 3)] (1, 3)) := by rfl
  exact ⟨heq, riverFlow_merge_suffix heq rfl⟩

theorem atW_overflow (g : Grid α) (x y : ℤ) :
    g.atW (overflow x (g.w : ℤ)) (overflow y (g.h : ℤ)) = g.atW x y := by
  unfold Grid.atW Grid.res overflow
  rw [Int.emod_emod_of_dvd _ dvd_rfl, Int.emod_emod_of_dvd _ dvd_rfl]

theorem fqStep_inv {st : RState} {c : Coord} {h0 : ℚ} {acc : Option Coord × ℚ}
    {d : ℤ × ℤ} (hd : d ∈ DIR_NEIGHBORS) (h : FQInv st c h0 acc) :
    FQInv st c h0 (fqStep st c acc d) := by
  unfold fqStep
  dsimp only
  by_cases hskip : (!st.wrap && isOutOfBounds st (c.1 + d.1, c.2 + d.2)) = true
  · rw [if_pos hskip]
    exact h
  · rw [if_neg hskip]
    have he : st.heightmap.atW (overflow (c.1 + d.1) st.wW) (overflow (c.2 + d.2) st.wH)
        = st.heightmap.atW (c.1 + d.1) (c.2 + d.2) := atW_overflow _ _ _
    by_cases hlt : st.heightmap.atW (overflow (c.1 + d.1) st.wW)
        (overflow (c.2 + d.2) st.wH) < acc.2
    · rw [if_pos hlt]
      refine ⟨?_, Or.inr ⟨d, hd, rfl, ?_, ?_⟩⟩ <;> dsimp only
      · exact le_of_lt (lt_of_lt_of_le hlt h.1)
      · exact he
      · exact lt_of_lt_of_le hlt h.1
    · rw [if_neg hlt]
      exact h

theorem fqFold_inv {st : RState} {c : Coord} {h0 : ℚ} :
    ∀ (l : List (ℤ × ℤ)) (acc : Option Coord × ℚ),
    (∀ d ∈ l, d ∈ DIR_NEIGHBORS) → FQInv st c h0 acc →
    FQInv st c h0 (l.foldl (fqStep st c) acc) := by
  intro l
  induction l with
  | nil => intro acc _ h; exact h
  | cons d rest ih =>
      intro acc hsub h
      rw [List.foldl_cons]
      exact ih _ (fun e he => hsub e (List.mem_cons_of_mem _ he))
        (fqStep_inv (hsub d (List.mem_cons_self _ _)) h)

theorem findQuickPath_spec {st : RState} {c : Coord} {r : Option Coord}
    (hok : findQuickPath st c = .ok r) :
    r = none ∨
      ∃ d, d ∈ DIR_NEIGHBORS ∧ r = some (c.1 + d.1, c.2 + d.2) ∧
        st.heightmap.atW (c.1 + d.1) (c.2 + d.2) < st.heightmap.atW c.1 c.2 := by
  unfold findQuickPath at hok
  cases hrd : st.heightmap.read? c.1 c.2 with
  | none => rw [hrd] at hok; dsimp only [ofOpt, bind, Except.bind] at hok; cases hok
  | some h0 =>
      rw [hrd] at hok
      dsimp only [ofOpt, bind, Except.bind, pure, Except.pure] at hok
      cases hok
      have hat : st.heightmap.atW c.1 c.2 = h0 := (read?_eq_some_iff.mp hrd).2
      have hinv := @fqFold_inv st c h0 DIR_NEIGHBORS (none, h0)
        (fun _ hd => hd) ⟨le_rfl, Or.inl ⟨rfl, rfl⟩⟩
      rcases hinv.2 with ⟨hnone, _⟩ | ⟨d, hd, hsome, hel, hlt⟩
      · exact Or.inl hnone
      · refine Or.inr ⟨d, hd, hsome, ?_⟩
        rw [← hel, hat]
        exact hlt

theorem res_id_of_range {g : Grid α} {x y : ℤ} (hx : 0 ≤ x ∧ x < (g.w : ℤ))
    (hy : 0 ≤ y ∧ y < (g.h : ℤ)) : g.res x y = (x, y) := by
  unfold Grid.res overflow
  rw [Int.emod_eq_of_lt hx.1 hx.2, Int.emod_eq_of_lt hy.1 hy.2]

theorem flowGood_writeW {hm : Grid ℚ} {wp : Grid ℕ} (hg : FlowGood hm wp) {x y : ℤ}
    {k : ℕ} (hres : wp.res x y = (x, y))
    (hk : k = 0 ∨ ∃ d, DIR_NEIGHBORS_CENTER.get? k = some d ∧ d ∈ DIR_NEIGHBORS ∧
      hm.atW (x + d.1) (y + d.2) < hm.atW x y) :
    FlowGood hm (wp.writeW x y k) := by
  intro a b
  show (if (a, b) = wp.res x y then k else wp.val a b) = 0 ∨
    ∃ d, DIR_NEIGHBORS_CENTER.get? (if (a, b) = wp.res x y then k else wp.val a b) = some d ∧
      d ∈ DIR_NEIGHBORS ∧ hm.atW (a + d.1) (b + d.2) < hm.atW a b
  by_cases heq : (a, b) = wp.res x y
  · rw [if_pos heq]
    rw [hres] at heq
    injection heq with h1 h2
    subst h1; subst h2
    exact hk
  · rw [if_neg heq]
    exact hg a b

theorem fwCell_good {st : RState} {x y : ℤ} {wp wp' : Grid ℕ}
    (hok : fwCell st x y wp = .ok wp')
    (hw : wp.w = st.heightmap.w) (hh : wp.h = st.heightmap.h)
    (hx : 0 ≤ x ∧ x < (st.heightmap.w : ℤ)) (hy : 0 ≤ y ∧ y < (st.heightmap.h : ℤ))
    (hg : FlowGood st.heightmap wp) :
    FlowGood st.heightmap wp' ∧ wp'.w = wp.w ∧ wp'.h = wp.h := by
  have hres : wp.res x y = (x, y) := res_id_of_range (hw ▸ hx) (hh ▸ hy)
  unfold fwCell at hok
  cases hq : findQuickPath st (x, y) with
  | error e => rw [hq] at hok; dsimp only [bind, Except.bind] at hok; cases hok
  | ok p =>
      rw [hq] at hok
      dsimp only [bind, Except.bind] at hok
      cases p with
      | none => cases hok; exact ⟨hg, rfl, rfl⟩
      | some t =>
          dsimp only at hok
          rcases findQuickPath_spec hq with hnone | ⟨d, hd, hsome, hdesc⟩
          · exact Option.noConfusion hnone
          · injection hsome with ht
            subst ht
            have hfd : ((x + d.1 - x : ℤ), (y + d.2 - y : ℤ)) = d := by
              rw [add_sub_cancel_left, add_sub_cancel_left]
            rw [show (((x + d.1, y + d.2) : Coord).1 - x, ((x + d.1, y + d.2) : Coord).2 - y)
                = d from hfd] at hok
            have hgood : ∀ k : ℕ, DIR_NEIGHBORS_CENTER.get? k = some d →
                FlowGood st.heightmap (wp.writeW x y k) := by
              intro k hk
              exact flowGood_writeW hg hres (Or.inr ⟨d, hk, hd, hdesc⟩)
            have hd4 := hd
            simp only [DIR_NEIGHBORS, List.mem_cons, List.not_mem_nil, or_false] at hd4
            rcases hd4 with rfl | rfl | rfl | rfl
            · norm_num [DIR_NEIGHBORS_CENTER, DIR_NEIGHBORS, List.foldl, Prod.mk.injEq] at hok
              subst hok
              exact ⟨hgood 1 (by decide), rfl, rfl⟩
            · norm_num [DIR_NEIGHBORS_CENTER, DIR_NEIGHBORS, List.foldl, Prod.mk.injEq] at hok
              subst hok
              exact ⟨hgood 2 (by decide), rfl, rfl⟩
            · norm_num [DIR_NEIGHBORS_CENTER, DIR_NEIGHBORS, List.foldl, Prod.mk.injEq] at hok
              subst hok
              exact ⟨hgood 3 (by decide), rfl, rfl⟩
            · norm_num [DIR_NEIGHBORS_CENTER, DIR_NEIGHBORS, List.foldl, Prod.mk.injEq] at hok
              subst hok
              exact ⟨hgood 4 (by decide), rfl, rfl⟩

theorem mem_rangeZ {a b x : ℤ} (h : x ∈ rangeZ a b) : a ≤ x ∧ x < b := by
  unfold rangeZ at h
  simp only [List.mem_map, List.mem_range] at h
  obtain ⟨n, hn, rfl⟩ := h
  omega

theorem fwRowY_good {st : RState} {x : ℤ}
    (hx : 0 ≤ x ∧ x < (st.heightmap.w : ℤ)) :
    ∀ {ys : List ℤ} {wp wp' : Grid ℕ},
    fwRowY st x ys wp = .ok wp' →
    (∀ y ∈ ys, 0 ≤ y ∧ y < (st.heightmap.h : ℤ)) →
    wp.w = st.heightmap.w → wp.h = st.heightmap.h →
    FlowGood st.heightmap wp →
    FlowGood st.heightmap wp' ∧ wp'.w = st.heightmap.w ∧ wp'.h = st.heightmap.h := by
  intro ys
  induction ys with
  | nil =>
      intro wp wp' h _ hw hh hg
      cases h
      exact ⟨hg, hw, hh⟩
  | cons y ys ih =>
      intro wp wp' h hys hw hh hg
      unfold fwRowY at h
      cases hc : fwCell st x y wp with
      | error e => rw [hc] at h; dsimp only [bind, Except.bind] at h; cases h
      | ok wp1 =>
          rw [hc] at h
          dsimp only [bind, Except.bind] at h
          obtain ⟨hg1, hw1, hh1⟩ :=
            fwCell_good hc hw hh hx (hys y (List.mem_cons_self _ _)) hg
          exact ih h (fun z hz => hys z (List.mem_cons_of_mem _ hz))
            (hw1.trans hw) (hh1.trans hh) hg1

theorem fwColX_good {st : RState} :
    ∀ {xs : List ℤ} {wp wp' : Grid ℕ},
    fwColX st xs wp = .ok wp' →
    (∀ x ∈ xs, 0 ≤ x ∧ x < (st.heightmap.w : ℤ)) →
    wp.w = st.heightmap.w → wp.h = st.heightmap.h →
    FlowGood st.heightmap wp →
    FlowGood st.heightmap wp' ∧ wp'.w = st.heightmap.w ∧ wp'.h = st.heightmap.h := by
  intro xs
  induction xs with
  | nil =>
      intro wp wp' h _ hw hh hg
      cases h
      exact ⟨hg, hw, hh⟩
  | cons x xs ih =>
      intro wp wp' h hxs hw hh hg
      unfold fwColX at h
      cases hc : fwRowY st x (rangeZ 0 (st.wH - 1)) wp with
      | error e => rw [hc] at h; dsimp only [bind, Except.bind] at h; cases h
      | ok wp1 =>
          rw [hc] at h
          dsimp only [bind, Except.bind] at h
          obtain ⟨hg1, hw1, hh1⟩ := fwRowY_good (hxs x (List.mem_cons_self _ _)) hc
            (fun y hy => by
              have := mem_rangeZ hy
              exact ⟨this.1, by have := this.2; unfold RState.wH at this; omega⟩)
            hw hh hg
          exact ih h (fun z hz => hxs z (List.mem_cons_of_mem _ hz)) hw1 hh1 hg1

/-- C5: the flow-direction grid built by `findWaterFlow` records, for
every cell, either no direction (key 0) or a 4-connected direction whose
(wrapped) neighbor has elevation strictly lower than the cell's own —
never a neighbor at greater or equal elevation. -/
theorem findWaterFlow_strict_descent {st st' : RState}
    (hok : findWaterFlow st = .ok st')
    (hz : ∀ a b, st.waterPath.val a b = 0)
    (hw : st.waterPath.w = st.heightmap.w) (hh : st.waterPath.h = st.heightmap.h) :
    ∀ a b, st'.waterPath.val a b = 0 ∨
      ∃ d, DIR_NEIGHBORS_CENTER.get? (st'.waterPath.val a b) = some d ∧
        d ∈ DIR_NEIGHBORS ∧
        st.heightmap.atW (a + d.1) (b + d.2) < st.heightmap.atW a b := by
  unfold findWaterFlow at hok
  cases hc : fwColX st (rangeZ 0 (st.wW - 1)) st.waterPath with
  | error e => rw [hc] at hok; dsimp only [bind, Except.bind] at hok; cases hok
  | ok wp =>
      rw [hc] at hok
      dsimp only [bind, Except.bind] at hok
      cases hok
      have hg0 : FlowGood st.heightmap st.waterPath := fun a b => Or.inl (hz a b)
      have := fwColX_good hc
        (fun x hx => by
          have := mem_rangeZ hx
          exact ⟨this.1, by have := this.2; unfold RState.wW at this; omega⟩)
        hw hh hg0
      exact this.1

/-- Witness for C5 on the 3×3 ramp. -/
theorem findWaterFlow_strict_descent_witness :
    findWaterFlow c5st = .ok c5st' ∧
    (∀ a b, c5st'.waterPath.val a b = 0 ∨
      ∃ d, DIR_NEIGHBORS_CENTER.get? (c5st'.waterPath.val a b) = some d ∧
        d ∈ DIR_NEIGHBORS ∧
        c5st.heightmap.atW (a + d.1) (b + d.2) < c5st.heightmap.atW a b) := by
  have hok : findWaterFlow c5st = .ok c5st' := by
    refine getOkD_eq dummyState ?_
    norm_num [findWaterFlow, fwColX, fwRowY, fwCell, findQuickPath, fqStep, c5st,
      initState, hC4, rmC4, zerosG, Grid.read?, Grid.atW, Grid.res, Grid.InR,
      Grid.writeW, overflow, RState.wW, RState.wH, rangeZ, ofOpt, DIR_NEIGHBORS,
      DIR_NEIGHBORS_CENTER, isOutOfBounds, List.range_succ, isOkb, bind, Except.bind,
      pure, Except.pure]
  refine ⟨hok, findWaterFlow_strict_descent hok (fun a b => rfl) rfl rfl⟩

theorem farApart_append {l : List Coord} {c : Coord} (hl : FarApart l)
    (hc : ∀ s ∈ l, ¬ inCircle 9 c.1 c.2 s.1 s.2 = true) : FarApart (l ++ [c]) := by
  rw [FarApart, List.pairwise_append]
  refine ⟨hl, List.pairwise_singleton _ _, ?_⟩
  intro a ha b hb
  rw [List.mem_singleton] at hb
  have hfar := hc a ha
  simp only [inCircle, decide_eq_true_eq, not_le] at hfar
  have hsym : sqDist a b = (c.1 - a.1) ^ 2 + (c.2 - a.2) ^ 2 := by
    rw [hb]
    unfold sqDist
    ring
  rw [hsym]
  calc (81 : ℤ) = 9 ^ 2 := by norm_num
    _ < _ := hfar

theorem followFlow_far {hm : Grid ℚ} {wP : Grid ℕ} {rf : ℚ} :
    ∀ {fuel : ℕ} {srcs : List Coord} {wf : Grid ℚ} {c : Coord}
      {out : List Coord × Grid ℚ},
    followFlow hm wP rf srcs wf c fuel = .ok out → FarApart srcs → FarApart out.1 := by
  intro fuel
  induction fuel with
  | zero => intro srcs wf c out h; cases h
  | succ n ih =>
      intro srcs wf c out h hfa
      unfold followFlow at h
      cases hr1 : hm.read? c.1 c.2 with
      | none => rw [hr1] at h; dsimp only [ofOpt, bind, Except.bind] at h; cases h
      | some hcc =>
          rw [hr1] at h
          dsimp only [ofOpt, bind, Except.bind] at h
          cases hr2 : wf.read? c.1 c.2 with
          | none => rw [hr2] at h; dsimp only [ofOpt, bind, Except.bind] at h; cases h
          | some wfcc =>
              rw [hr2] at h
              dsimp only [ofOpt, bind, Except.bind] at h
              by_cases hseed : BIOME_ELEVATION_HILLS_LOW ≤ hcc ∧
                  hcc ≤ BIOME_ELEVATION_MOUNTAIN_LOW ∧ 10 ≤ wfcc
              · rw [if_pos hseed] at h
                by_cases hany : (srcs.any fun s => inCircle 9 c.1 c.2 s.1 s.2) = true
                · rw [if_pos hany] at h
                  cases h
                  exact hfa
                · rw [if_neg hany] at h
                  cases h
                  refine farApart_append hfa ?_
                  intro s hs hin
                  exact hany (List.any_eq_true.mpr ⟨s, hs, hin⟩)
              · rw [if_neg hseed] at h
                cases hr3 : wP.read? c.1 c.2 with
                | none => rw [hr3] at h; dsimp only [ofOpt, bind, Except.bind] at h; cases h
                | some k =>
                    rw [hr3] at h
                    dsimp only [ofOpt, bind, Except.bind] at h
                    by_cases hk : k = 0
                    · rw [if_pos hk] at h
                      cases h
                      exact hfa
                    · rw [if_neg hk] at h
                      cases hg : DIR_NEIGHBORS_CENTER.get? k with
                      | none => rw [hg] at h; cases h
                      | some d =>
                          rw [hg] at h
                          dsimp only at h
                          cases hr4 : wf.read? (c.1 + d.1) (c.2 + d.2) with
                          | none =>
                              rw [hr4] at h
                              dsimp only [ofOpt, bind, Except.bind] at h
                              cases h
                          | some prev =>
                              rw [hr4] at h
                              dsimp only [ofOpt, bind, Except.bind] at h
                              cases hw : wf.writeE (c.1 + d.1) (c.2 + d.2) (prev + rf) with
                              | error e =>
                                  rw [hw] at h
                                  dsimp only [bind, Except.bind] at h
                                  cases h
                              | ok wf1 =>
                                  rw [hw] at h
                                  dsimp only [bind, Except.bind] at h
                                  exact ih h hfa

theorem srcV2Cell_far {st : RState} {wP : Grid ℕ} {x y : ℤ}
    {acc : List Coord × Grid ℚ} {fuel : ℕ} {out : List Coord × Grid ℚ}
    (h : srcV2Cell st wP x y acc fuel = .ok out) (hfa : FarApart acc.1) :
    FarApart out.1 := by
  unfold srcV2Cell at h
  cases hrm : st.rainMap with
  | none => rw [hrm] at h; dsimp only [bind, Except.bind] at h; cases h
  | some rmg =>
      rw [hrm] at h
      dsimp only [bind, Except.bind] at h
      cases hr1 : rmg.read? x y with
      | none => rw [hr1] at h; dsimp only [ofOpt, bind, Except.bind] at h; cases h
      | some rainFall =>
          rw [hr1] at h
          dsimp only [ofOpt, bind, Except.bind] at h
          cases hw : acc.2.writeE x y rainFall with
          | error e => rw [hw] at h; dsimp only [bind, Except.bind] at h; cases h
          | ok wf1 =>
              rw [hw] at h
              dsimp only [bind, Except.bind] at h
              cases hr2 : wP.read? x y with
              | none => rw [hr2] at h; dsimp only [ofOpt, bind, Except.bind] at h; cases h
              | some k =>
                  rw [hr2] at h
                  dsimp only [ofOpt, bind, Except.bind] at h
                  by_cases hk : k = 0
                  · rw [if_pos hk] at h
                    cases h
                    exact hfa
                  · rw [if_neg hk] at h
                    exact followFlow_far h hfa

theorem srcV2Y_far {st : RState} {wP : Grid ℕ} {fuel : ℕ} {x : ℤ} :
    ∀ {ys : List ℤ} {acc out : List Coord × Grid ℚ},
    srcV2Y st wP fuel x ys acc = .ok out → FarApart acc.1 → FarApart out.1 := by
  intro ys
  induction ys with
  | nil => intro acc out h hfa; cases h; exact hfa
  | cons y ys ih =>
      intro acc out h hfa
      unfold srcV2Y at h
      cases hc : srcV2Cell st wP x y acc fuel with
      | error e => rw [hc] at h; dsimp only [bind, Except.bind] at h; cases h
      | ok acc1 =>
          rw [hc] at h
          dsimp only [bind, Except.bind] at h
          exact ih h (srcV2Cell_far hc hfa)

theorem srcV2X_far {st : RState} {wP : Grid ℕ} {fuel : ℕ} :
    ∀ {xs : List ℤ} {acc out : List Coord × Grid ℚ},
    srcV2X st wP fuel xs acc = .ok out → FarApart acc.1 → FarApart out.1 := by
  intro xs
  induction xs with
  | nil => intro acc out h hfa; cases h; exact hfa
  | cons x xs ih =>
      intro acc out h hfa
      unfold srcV2X at h
      cases hc : srcV2Y st wP fuel x (rangeZ 0 (st.wH - 1)) acc with
      | error e => rw [hc] at h; dsimp only [bind, Except.bind] at h; cases h
      | ok acc1 =>
          rw [hc] at h
          dsimp only [bind, Except.bind] at h
          exact ih h (srcV2Y_far hc hfa)

/-- C7: whenever the accumulation strategy runs (`waterFlow` holds an
array, as in every `generate` run), every recorded river source has
squared distance greater than 81 to every other recorded source. -/
theorem riverSources_accumulation_far {st : RState} {fuel : ℕ} {wf0 : Grid ℚ}
    {out : List Coord × RState} (hwf : st.waterFlow = some wf0)
    (hok : riverSources st fuel = .ok out) : FarApart out.1 := by
  unfold riverSources at hok
  rw [hwf] at hok
  dsimp only at hok
  unfold riverSourcesV2 at hok
  cases hc : srcV2X st st.waterPath fuel (rangeZ 0 (st.wW - 1)) ([], wf0) with
  | error e => rw [hc] at hok; dsimp only [bind, Except.bind] at hok; cases hok
  | ok acc =>
      rw [hc] at hok
      dsimp only [bind, Except.bind] at hok
      cases hok
      exact srcV2X_far hc List.Pairwise.nil

/-- Witness for C7: the accumulation strategy on the rained-on 2×2 slope
succeeds and its recorded sources are pairwise more than 81 apart in
squared distance. -/
theorem riverSources_accumulation_far_witness :
    c7st.waterFlow = some (zerosG 2 2 0) ∧
    riverSources c7st 9 = .ok c7out ∧
    FarApart c7out.1 := by
  have hwf : c7st.waterFlow = some (zerosG 2 2 0) := by
    norm_num [c7st, getOkD, findWaterFlow, fwColX, fwRowY, fwCell, findQuickPath,
      fqStep, initState, hC7, rmC7, zerosG, Grid.read?, Grid.atW, Grid.res, Grid.InR,
      Grid.writeW, overflow, RState.wW, RState.wH, rangeZ, ofOpt, DIR_NEIGHBORS,
      DIR_NEIGHBORS_CENTER, isOutOfBounds, List.range_succ, bind, Except.bind, pure,
      Except.pure]
  have hok : riverSources c7st 9 = .ok c7out := by
    refine getOkD_eq ([], dummyState) ?_
    norm_num [riverSources, riverSourcesV2, srcV2X, srcV2Y, srcV2Cell, followFlow,
      c7st, getOkD, findWaterFlow, fwColX, fwRowY, fwCell, findQuickPath, fqStep,
      initState, hC7, rmC7, zerosG, Grid.read?, Grid.atW, Grid.res, Grid.InR,
      Grid.writeW, Grid.writeE, overflow, RState.wW, RState.wH, rangeZ, ofOpt,
      DIR_NEIGHBORS, DIR_NEIGHBORS_CENTER, BIOME_ELEVATION_HILLS_LOW,
      BIOME_ELEVATION_MOUNTAIN_LOW, inCircle, isOutOfBounds, List.range_succ, isOkb,
      bind, Except.bind, pure, Except.pure]
  exact ⟨hwf, hok, riverSources_accumulation_far hwf hok⟩

theorem sameButH_refl (st : RState) : SameButH st st :=
  ⟨rfl, rfl, rfl, rfl, rfl, rfl, rfl, rfl, rfl, rfl, rfl, rfl⟩

theorem sameButH_trans {st3 st2 st1 : RState} (h32 : SameButH st3 st2)
    (h21 : SameButH st2 st1) : SameButH st3 st1 := by
  obtain ⟨a1, a2, a3, a4, a5, a6, a7, a8, a9, a10, a11, a12⟩ := h32
  obtain ⟨b1, b2, b3, b4, b5, b6, b7, b8, b9, b10, b11, b12⟩ := h21
  exact ⟨a1.trans b1, a2.trans b2, a3.trans b3, a4.trans b4, a5.trans b5, a6.trans b6,
    a7.trans b7, a8.trans b8, a9.trans b9, a10.trans b10, a11.trans b11, a12.trans b12⟩

theorem uniform_between {st : RState} {a b : ℚ} (hab : a ≤ b) :
    a ≤ (st.uniform a b).1 ∧ (st.uniform a b).1 ≤ b := by
  unfold RState.uniform
  dsimp only
  have hc0 : 0 ≤ max 0 (min 1 (st.rand st.ridx)) := le_max_left _ _
  have hc1 : max 0 (min 1 (st.rand st.ridx)) ≤ 1 :=
    max_le zero_le_one (min_le_left _ _)
  constructor
  · have := mul_nonneg hc0 (sub_nonneg.mpr hab)
    linarith
  · have h2 : max 0 (min 1 (st.rand st.ridx)) * (b - a) ≤ b - a := by
      nlinarith [sub_nonneg.mpr hab]
    linarith

theorem writeE_ok {g g' : Grid α} {x y : ℤ} {v : α}
    (h : g.writeE x y v = .ok g') : g' = g.writeW x y v ∧ g.InR x y := by
  unfold Grid.writeE at h
  split at h
  · cases h; exact ⟨rfl, by assumption⟩
  · cases h

theorem bedCarve_spec : ∀ {l : List Coord} {st : RState} {m : ℚ} {st' : RState},
    bedCarve st m l = .ok st' → 0 ≤ m → st.heightmap.Nonneg →
    st'.heightmap.Below st.heightmap ∧ st'.heightmap.Nonneg ∧ SameButH st' st := by
  intro l
  induction l with
  | nil =>
      intro st m st' h _ hnn
      cases h
      exact ⟨below_refl _, hnn, sameButH_refl _⟩
  | cons r rest ih =>
      intro st m st' h hm hnn
      unfold bedCarve at h
      cases hr : st.heightmap.read? r.1 r.2 with
      | none => rw [hr] at h; dsimp only [ofOpt, bind, Except.bind] at h; cases h
      | some v =>
          rw [hr] at h
          dsimp only [ofOpt, bind, Except.bind] at h
          obtain ⟨hin, hat⟩ := read?_eq_some_iff.mp hr
          have hv0 : 0 ≤ v := hat ▸ nonneg_atW hnn r.1 r.2
          set m1 := if v < m then v else m with hm1def
          have hm10 : 0 ≤ m1 := by
            rw [hm1def]; split
            · exact hv0
            · exact hm
          have hm1v : m1 ≤ v := by
            rw [hm1def]; split
            · exact le_rfl
            · rename_i hnv
              exact le_of_not_lt hnv
          have hmn : m1 * (99/100) ≤ m1 := by nlinarith
          have hub := @uniform_between st _ _ hmn
          set u := (st.uniform (m1 * (99/100)) m1).1 with hudef
          have hu0 : 0 ≤ u := le_trans (by nlinarith) hub.1
          have huv : u ≤ v := le_trans hub.2 hm1v
          cases hw : (st.uniform (m1 * (99/100)) m1).2.heightmap.writeE r.1 r.2 u with
          | error e => rw [hw] at h; dsimp only [bind, Except.bind] at h; cases h
          | ok hm' =>
              rw [hw] at h
              dsimp only [bind, Except.bind] at h
              obtain ⟨hgw, _⟩ := writeE_ok hw
              subst hgw
              have hmid : ((st.uniform (m1 * (99/100)) m1).2.heightmap.writeW r.1 r.2
                  u).Below st.heightmap := by
                refine below_writeW ?_
                show u ≤ st.heightmap.atW r.1 r.2
                rw [hat]
                exact huv
              have hmidnn : ((st.uniform (m1 * (99/100)) m1).2.heightmap.writeW r.1 r.2
                  u).Nonneg := nonneg_writeW hnn hu0 _ _
              obtain ⟨hb, hn, hs⟩ := ih h hu0 hmidnn
              refine ⟨below_trans hb hmid, hn, ?_⟩
              exact sameButH_trans hs (sameButH_refl _)

theorem valleyCellAt_spec {st : RState} {river : List Coord} {rc : Coord} {x0 y0 : ℤ}
    {st' : RState} (h : valleyCellAt st river rc x0 y0 = .ok st')
    (hnn : st.heightmap.Nonneg) :
    st'.heightmap.Below st.heightmap ∧ st'.heightmap.Nonneg ∧ SameButH st' st := by
  unfold valleyCellAt at h
  dsimp only at h
  by_cases h1 : (!st.wrap && isOutOfBounds st (x0, y0)) = true
  · rw [if_pos h1] at h
    cases h
    exact ⟨below_refl _, hnn, sameButH_refl _⟩
  · rw [if_neg h1] at h
    set X := overflow x0 st.wW with hXdef
    set Y := overflow y0 st.wH with hYdef
    by_cases h2 : ((X, Y) : ℤ × ℤ) = ((0 : ℤ), (0 : ℤ))
    · rw [if_pos h2] at h
      cases h
      exact ⟨below_refl _, hnn, sameButH_refl _⟩
    · rw [if_neg h2] at h
      by_cases h3 : ((X, Y) : Coord) ∈ river
      · rw [if_pos h3] at h
        cases h
        exact ⟨below_refl _, hnn, sameButH_refl _⟩
      · rw [if_neg h3] at h
        cases hr : st.heightmap.read? rc.1 rc.2 with
        | none => rw [hr] at h; dsimp only [ofOpt, bind, Except.bind] at h; cases h
        | some hrv =>
            rw [hr] at h
            dsimp only [ofOpt, bind, Except.bind] at h
            set H := st.heightmap.atW X Y with hHdef
            by_cases h4 : H ≤ hrv
            · rw [if_pos h4] at h
              cases h
              exact ⟨below_refl _, hnn, sameButH_refl _⟩
            · rw [if_neg h4] at h
              by_cases h5 : (!inCircle 2 rc.1 rc.2 X Y) = true
              · rw [if_pos h5] at h
                cases h
                exact ⟨below_refl _, hnn, sameButH_refl _⟩
              · rw [if_neg h5] at h
                set curve := if |rc.1 - X| = 1 ∨ |rc.2 - Y| = 1 then (1/5 : ℚ)
                  else if |rc.1 - X| = 2 ∨ |rc.2 - Y| = 2 then 1/20 else 1 with hcdef
                set newE2 := if H + (hrv - H) * curve ≤ hrv then H
                  else H + (hrv - H) * curve with hndef
                have hcb : 0 ≤ curve ∧ curve ≤ 1 := by
                  rw [hcdef]
                  constructor <;> (split_ifs <;> norm_num)
                have hrv0 : 0 ≤ hrv := by
                  have := (read?_eq_some_iff.mp hr).2
                  rw [← this]
                  exact nonneg_atW hnn _ _
                have hH0 : 0 ≤ H := nonneg_atW hnn _ _
                have hlt : hrv < H := lt_of_not_le h4
                have hle : newE2 ≤ H := by
                  rw [hndef]
                  split_ifs
                  · exact le_rfl
                  · nlinarith [hcb.1]
                have hnn2 : 0 ≤ newE2 := by
                  rw [hndef]
                  split_ifs
                  · exact hH0
                  · have heq : H + (hrv - H) * curve = (1 - curve) * H + curve * hrv := by
                      ring
                    rw [heq]
                    exact add_nonneg (mul_nonneg (by linarith [hcb.2]) hH0)
                      (mul_nonneg hcb.1 hrv0)
                cases hw : st.heightmap.writeE X Y newE2 with
                | error e => rw [hw] at h; dsimp only [bind, Except.bind] at h; cases h
                | ok hm =>
                    rw [hw] at h
                    dsimp only [bind, Except.bind] at h
                    cases h
                    obtain ⟨hgw, _⟩ := writeE_ok hw
                    subst hgw
                    refine ⟨below_writeW ?_, nonneg_writeW hnn hnn2 _ _, sameButH_refl _⟩
                    exact hle

theorem valleyY_spec {river : List Coord} {rc : Coord} {x0 : ℤ} :
    ∀ {ys : List ℤ} {st st' : RState},
    valleyY river rc x0 st ys = .ok st' → st.heightmap.Nonneg →
    st'.heightmap.Below st.heightmap ∧ st'.heightmap.Nonneg ∧ SameButH st' st := by
  intro ys
  induction ys with
  | nil =>
      intro st st' h hnn
      cases h
      exact ⟨below_refl _, hnn, sameButH_refl _⟩
  | cons y0 ys ih =>
      intro st st' h hnn
      unfold valleyY at h
      cases hc : valleyCellAt st river rc x0 y0 with
      | error e => rw [hc] at h; dsimp only [bind, Except.bind] at h; cases h
      | ok st1 =>
          rw [hc] at h
          dsimp only [bind, Except.bind] at h
          obtain ⟨hb1, hn1, hs1⟩ := valleyCellAt_spec hc hnn
          obtain ⟨hb2, hn2, hs2⟩ := ih h hn1
          exact ⟨below_trans hb2 hb1, hn2, sameButH_trans hs2 hs1⟩

theorem valleyX_spec {river : List Coord} {rc : Coord} :
    ∀ {xs : List ℤ} {st st' : RState},
    valleyX river rc st xs = .ok st' → st.heightmap.Nonneg →
    st'.heightmap.Below st.heightmap ∧ st'.heightmap.Nonneg ∧ SameButH st' st := by
  intro xs
  induction xs with
  | nil =>
      intro st st' h hnn
      cases h
      exact ⟨below_refl _, hnn, sameButH_refl _⟩
  | cons x0 xs ih =>
      intro st st' h hnn
      unfold valleyX at h
      cases hc : valleyY river rc x0 st (rangeZ (rc.2 - 2) (rc.2 + 2)) with
      | error e => rw [hc] at h; dsimp only [bind, Except.bind] at h; cases h
      | ok st1 =>
          rw [hc] at h
          dsimp only [bind, Except.bind] at h
          obtain ⟨hb1, hn1, hs1⟩ := valleyY_spec hc hnn
          obtain ⟨hb2, hn2, hs2⟩ := ih h hn1
          exact ⟨below_trans hb2 hb1, hn2, sameButH_trans hs2 hs1⟩

theorem valleyR_spec {river : List Coord} :
    ∀ {cells : List Coord} {st st' : RState},
    valleyR river st cells = .ok st' → st.heightmap.Nonneg →
    st'.heightmap.Below st.heightmap ∧ st'.heightmap.Nonneg ∧ SameButH st' st := by
  intro cells
  induction cells with
  | nil =>
      intro st st' h hnn
      cases h
      exact ⟨below_refl _, hnn, sameButH_refl _⟩
  | cons rc rest ih =>
      intro st st' h hnn
      unfold valleyR at h
      cases hc : valleyX river rc st (rangeZ (rc.1 - 2) (rc.1 + 2)) with
      | error e => rw [hc] at h; dsimp only [bind, Except.bind] at h; cases h
      | ok st1 =>
          rw [hc] at h
          dsimp only [bind, Except.bind] at h
          obtain ⟨hb1, hn1, hs1⟩ := valleyX_spec hc hnn
          obtain ⟨hb2, hn2, hs2⟩ := ih h hn1
          exact ⟨below_trans hb2 hb1, hn2, sameButH_trans hs2 hs1⟩

theorem riverErosion_spec {st st' : RState} {river : List Coord}
    (hok : riverErosion st river = .ok st') (hnn : st.heightmap.Nonneg) :
    st'.heightmap.Below st.heightmap ∧ st'.heightmap.Nonneg ∧ SameButH st' st := by
  unfold riverErosion at hok
  cases hb : bedCarve st 1 river with
  | error e => rw [hb] at hok; dsimp only [bind, Except.bind] at hok; cases hok
  | ok st1 =>
      rw [hb] at hok
      dsimp only [bind, Except.bind] at hok
      obtain ⟨hb1, hn1, hs1⟩ := bedCarve_spec hb (by norm_num) hnn
      obtain ⟨hb2, hn2, hs2⟩ := valleyR_spec hok hn1
      exact ⟨below_trans hb2 hb1, hn2, sameButH_trans hs2 hs1⟩

/-- C9: for every river path, heightmap with values ≥ 0, and outcome of
the injected random sampling, a second `riverErosion` pass over the same
path leaves no cell above the elevation the first pass produced. -/
theorem riverErosion_second_pass_le {st : RState} {river : List Coord}
    (hnn : st.heightmap.Nonneg) {st1 : RState}
    (h1 : riverErosion st river = .ok st1) {st2 : RState}
    (h2 : riverErosion st1 river = .ok st2) :
    ∀ a b, st2.heightmap.val a b ≤ st1.heightmap.val a b := by
  obtain ⟨_, hn1, _⟩ := riverErosion_spec h1 hnn
  obtain ⟨hb2, _, _⟩ := riverErosion_spec h2 hn1
  exact hb2.2.2

set_option maxHeartbeats 1000000 in
/-- Witness for C9: two concrete erosion passes over the same 2-cell
river; the second never raises any cell above the first pass's result. -/
theorem riverErosion_second_pass_le_witness :
    (mkState hC7).heightmap.Nonneg ∧
    riverErosion (mkState hC7) rivC9 = .ok c9st1 ∧
    riverErosion c9st1 rivC9 = .ok c9st2 ∧
    ∀ a b, c9st2.heightmap.val a b ≤ c9st1.heightmap.val a b := by
  have hnn : (mkState hC7).heightmap.Nonneg := by
    intro a b
    show (0 : ℚ) ≤ hC7.val a b
    unfold hC7
    dsimp only
    split <;> norm_num
  have h1 : riverErosion (mkState hC7) rivC9 = .ok c9st1 := by
    refine getOkD_eq dummyState ?_
    norm_num [riverErosion, bedCarve, valleyR, valleyX, valleyY, valleyCellAt,
      RState.uniform, rivC9, mkState, hC7, zerosG, Grid.read?, Grid.atW, Grid.res,
      Grid.InR, Grid.writeW, Grid.writeE, overflow, RState.wW, RState.wH, rangeZ,
      ofOpt, inCircle, isOutOfBounds, List.range_succ, isOkb, bind, Except.bind,
      pure, Except.pure, -Prod.mk_one_one, -Prod.mk_zero_zero]
  have h2 : riverErosion c9st1 rivC9 = .ok c9st2 := by
    refine getOkD_eq dummyState ?_
    norm_num [c9st1, getOkD, riverErosion, bedCarve, valleyR, valleyX, valleyY,
      valleyCellAt, RState.uniform, rivC9, mkState, hC7, zerosG, Grid.read?, Grid.atW,
      Grid.res, Grid.InR, Grid.writeW, Grid.writeE, overflow, RState.wW, RState.wH,
      rangeZ, ofOpt, inCircle, isOutOfBounds, List.range_succ, isOkb, bind,
      Except.bind, pure, Except.pure, -Prod.mk_one_one, -Prod.mk_zero_zero]
  exact ⟨hnn, h1, h2, riverErosion_second_pass_le hnn h1 h2⟩

theorem findWaterFlow_frame {st st' : RState} (h : findWaterFlow st = .ok st') :
    st'.inputH = st.inputH ∧ st'.heightmap = st.heightmap ∧ st'.riverMap = st.riverMap ∧
    st'.lakeMap = st.lakeMap ∧ st'.erosionMap = st.erosionMap ∧
    st'.waterFlow = st.waterFlow ∧ st'.rainMap = st.rainMap ∧
    st'.lakeList = st.lakeList ∧ st'.riverList = st.riverList ∧ st'.wrap = st.wrap ∧
    st'.rand = st.rand ∧ st'.randN = st.randN ∧ st'.ridx = st.ridx := by
  unfold findWaterFlow at h
  cases hc : fwColX st (rangeZ 0 (st.wW - 1)) st.waterPath with
  | error e => rw [hc] at h; dsimp only [bind, Except.bind] at h; cases h
  | ok wp =>
      rw [hc] at h
      dsimp only [bind, Except.bind] at h
      cases h
      exact ⟨rfl, rfl, rfl, rfl, rfl, rfl, rfl, rfl, rfl, rfl, rfl, rfl, rfl⟩

theorem riverSources_frame {st : RState} {fuel : ℕ} {wf0 : Grid ℚ}
    {out : List Coord × RState} (hwf : st.waterFlow = some wf0)
    (h : riverSources st fuel = .ok out) :
    out.2.inputH = st.inputH ∧ out.2.heightmap = st.heightmap ∧
    out.2.riverMap = st.riverMap ∧ out.2.lakeMap = st.lakeMap ∧
    out.2.erosionMap = st.erosionMap ∧ out.2.waterPath = st.waterPath ∧
    out.2.rainMap = st.rainMap ∧ out.2.lakeList = st.lakeList ∧
    out.2.riverList = st.riverList ∧ out.2.wrap = st.wrap ∧
    out.2.rand = st.rand ∧ out.2.randN = st.randN ∧ out.2.ridx = st.ridx := by
  unfold riverSources at h
  rw [hwf] at h
  dsimp only at h
  unfold riverSourcesV2 at h
  cases hc : srcV2X st st.waterPath fuel (rangeZ 0 (st.wW - 1)) ([], wf0) with
  | error e => rw [hc] at h; dsimp only [bind, Except.bind] at h; cases h
  | ok acc =>
      rw [hc] at h
      dsimp only [bind, Except.bind] at h
      cases h
      exact ⟨rfl, rfl, rfl, rfl, rfl, rfl, rfl, rfl, rfl, rfl, rfl, rfl, rfl⟩

theorem riverMapUpdate_frame {st st' : RState} {river : List Coord}
    (h : riverMapUpdate st river = .ok st') :
    st'.inputH = st.inputH ∧ st'.heightmap = st.heightmap ∧
    st'.lakeMap = st.lakeMap ∧ st'.erosionMap = st.erosionMap ∧
    st'.waterPath = st.waterPath ∧ st'.waterFlow = st.waterFlow ∧
    st'.rainMap = st.rainMap ∧ st'.lakeList = st.lakeList ∧
    st'.riverList = st.riverList ∧ st'.wrap = st.wrap ∧
    st'.rand = st.rand ∧ st'.randN = st.randN ∧ st'.ridx = st.ridx := by
  unfold riverMapUpdate at h
  cases hc : rmuLoop st true (0, 0) st.riverMap river with
  | error e => rw [hc] at h; dsimp only [bind, Except.bind] at h; cases h
  | ok rm =>
      rw [hc] at h
      dsimp only [bind, Except.bind] at h
      cases h
      exact ⟨rfl, rfl, rfl, rfl, rfl, rfl, rfl, rfl, rfl, rfl, rfl, rfl, rfl⟩

theorem riverFlowAux_frame {pf : PathFinder} :
    ∀ {fuel : ℕ} {st : RState} {c : Coord} {path : List Coord}
      {out : List Coord × RState × FlowExit},
    riverFlowAux pf st c path fuel = .ok out →
    out.2.1.inputH = st.inputH ∧ out.2.1.heightmap = st.heightmap ∧
    out.2.1.riverMap = st.riverMap ∧ out.2.1.lakeMap = st.lakeMap ∧
    out.2.1.erosionMap = st.erosionMap ∧ out.2.1.waterPath = st.waterPath ∧
    out.2.1.waterFlow = st.waterFlow ∧ out.2.1.rainMap = st.rainMap ∧
    out.2.1.riverList = st.riverList ∧ out.2.1.wrap = st.wrap ∧
    out.2.1.rand = st.rand ∧ out.2.1.randN = st.randN ∧ out.2.1.ridx = st.ridx ∧
    ∃ t, out.2.1.lakeList = st.lakeList ++ t := by
  intro fuel
  induction fuel with
  | zero => intro st c path out h; cases h
  | succ n ih =>
      intro st c path out h
      unfold riverFlowAux at h
      cases hm : mergeScanDirs st c DIR_NEIGHBORS with
      | some pr =>
          obtain ⟨riv', hit'⟩ := pr
          rw [hm] at h
          dsimp only at h
          cases h
          exact ⟨rfl, rfl, rfl, rfl, rfl, rfl, rfl, rfl, rfl, rfl, rfl, rfl, rfl,
            [], (List.append_nil _).symm⟩
      | none =>
          rw [hm] at h
          dsimp only at h
          cases hrd : st.heightmap.read? c.1 c.2 with
          | none => rw [hrd] at h; dsimp only [ofOpt, bind, Except.bind] at h; cases h
          | some hxy =>
              rw [hrd] at h
              dsimp only [ofOpt, bind, Except.bind] at h
              by_cases hsea : hxy ≤ WGEN_SEA_LEVEL
              · rw [if_pos hsea] at h
                cases h
                exact ⟨rfl, rfl, rfl, rfl, rfl, rfl, rfl, rfl, rfl, rfl, rfl, rfl, rfl,
                  [], (List.append_nil _).symm⟩
              · rw [if_neg hsea] at h
                cases hq : findQuickPath st c with
                | error e => rw [hq] at h; dsimp only [bind, Except.bind] at h; cases h
                | ok q =>
                    rw [hq] at h
                    dsimp only [bind, Except.bind] at h
                    cases q with
                    | some nxt =>
                        dsimp only at h
                        exact ih h
                    | none =>
                        dsimp only at h
                        cases hf : findLowerElevation st c with
                        | error e =>
                            rw [hf] at h; dsimp only [bind, Except.bind] at h; cases h
                        | ok fle =>
                            rw [hf] at h
                            dsimp only [bind, Except.bind] at h
                            obtain ⟨isW, dopt⟩ := fle
                            cases dopt with
                            | some d =>
                                cases isW with
                                | false =>
                                    dsimp only at h
                                    by_cases hlp : pf st.heightmap c d = []
                                    · rw [dif_pos hlp] at h
                                      cases h
                                      exact ⟨rfl, rfl, rfl, rfl, rfl, rfl, rfl, rfl, rfl,
                                        rfl, rfl, rfl, rfl, [], (List.append_nil _).symm⟩
                                    · rw [dif_neg hlp] at h
                                      exact ih h
                                | true =>
                                    dsimp only at h
                                    exact ih h
                            | none =>
                                dsimp only at h
                                cases h
                                exact ⟨rfl, rfl, rfl, rfl, rfl, rfl, rfl, rfl, rfl, rfl,
                                  rfl, rfl, rfl, [c], rfl⟩

theorem classified_mono {river : List Coord} {st st' : RState}
    (hc : Classified river st) (hb : st'.heightmap.Below st.heightmap)
    (hl : ∃ t, st'.lakeList = st.lakeList ++ t) : Classified river st' := by
  obtain ⟨rl, hrl, hcase⟩ := hc
  refine ⟨rl, hrl, ?_⟩
  rcases hcase with ⟨v, hv, hvs⟩ | hmem
  · obtain ⟨v', hv', hle⟩ := below_read? hb hv
    exact Or.inl ⟨v', hv', hle.trans hvs⟩
  · obtain ⟨t, ht⟩ := hl
    rw [ht]
    exact Or.inr (List.mem_append_left _ hmem)

theorem below_of_eq {g' g : Grid ℚ} (h : g' = g) : g'.Below g := h ▸ below_refl g

theorem traceLoop_inv {pf : PathFinder} {fuel : ℕ} :
    ∀ {srcs : List Coord} {st st' : RState},
    traceLoop pf fuel srcs st = .ok st' → TraceInv st →
    TraceInv st' ∧ st'.inputH = st.inputH ∧ st'.rainMap = st.rainMap ∧
      st'.waterFlow = st.waterFlow ∧ st'.heightmap.Below st.heightmap := by
  intro srcs
  induction srcs with
  | nil =>
      intro st st' h hinv
      cases h
      exact ⟨hinv, rfl, rfl, rfl, below_refl _⟩
  | cons src rest ih =>
      intro st st' h hinv
      unfold traceLoop at h
      cases hrf : riverFlow pf st src fuel with
      | error e => rw [hrf] at h; dsimp only [bind, Except.bind] at h; cases h
      | ok out =>
          rw [hrf] at h
          dsimp only [bind, Except.bind] at h
          obtain ⟨f1, f2, f3, f4, f5, f6, f7, f8, f9, f10, f11, f12, f13, t0, hlk⟩ :=
            riverFlowAux_frame hrf
          have hinv1 : TraceInv out.2.1 := by
            refine ⟨f2 ▸ hinv.1, ?_⟩
            intro river hr
            rw [f9] at hr
            exact classified_mono (hinv.2 river hr) (below_of_eq f2) ⟨t0, hlk⟩
          cases hlast : out.1.getLast? with
          | none =>
              rw [hlast] at h
              obtain ⟨hi, h1, h2, h3, h4⟩ := ih h hinv1
              exact ⟨hi, h1.trans f1, h2.trans f8, h3.trans f7,
                below_trans h4 (below_of_eq f2)⟩
          | some rl =>
              rw [hlast] at h
              dsimp only at h
              cases hcl : cleanUpFlow
                  { out.2.1 with riverList := out.2.1.riverList ++ [out.1] }.heightmap
                  out.1 with
              | error e => rw [hcl] at h; dsimp only [bind, Except.bind] at h; cases h
              | ok hm =>
                  rw [hcl] at h
                  dsimp only [bind, Except.bind] at h
                  cases hrd : hm.read? rl.1 rl.2 with
                  | none =>
                      rw [hrd] at h
                      dsimp only [ofOpt, bind, Except.bind] at h
                      cases h
                  | some v =>
                      rw [hrd] at h
                      dsimp only [ofOpt, bind, Except.bind] at h
                      have hbelow : hm.Below out.2.1.heightmap := cleanUpAux_below hcl
                      have hnnhm : hm.Nonneg :=
                        cleanUpAux_nonneg hcl (f2 ▸ hinv.1) (by norm_num)
                      have hclassified : ∀ st4 : RState,
                          st4.heightmap = hm →
                          (∃ t, st4.lakeList = out.2.1.lakeList ++ t) →
                          ∀ river ∈ out.2.1.riverList, Classified river st4 := by
                        intro st4 hh4 hl4 river hr
                        refine classified_mono (hinv1.2 river hr) ?_ hl4
                        rw [hh4]
                        exact hbelow
                      by_cases hsea : WGEN_SEA_LEVEL < v
                      · rw [if_pos hsea] at h
                        have hinv4 : TraceInv
                            { out.2.1 with
                                heightmap := hm,
                                riverList := out.2.1.riverList ++ [out.1],
                                lakeList := out.2.1.lakeList ++ [rl] } := by
                          constructor
                          · exact hnnhm
                          · intro river hr
                            rcases List.mem_append.mp hr with hold | hnew
                            · exact hclassified _ rfl ⟨[rl], rfl⟩ river hold
                            · rw [List.mem_singleton] at hnew
                              subst hnew
                              exact ⟨rl, hlast, Or.inr (List.mem_append_right _
                                (List.mem_singleton.mpr rfl))⟩
                        obtain ⟨hi, h1, h2, h3, h4⟩ := ih h hinv4
                        refine ⟨hi, h1.trans f1, h2.trans f8, h3.trans f7, ?_⟩
                        refine below_trans h4 ?_
                        show hm.Below st.heightmap
                        exact below_trans hbelow (below_of_eq f2)
                      · rw [if_neg hsea] at h
                        have hinv4 : TraceInv
                            { out.2.1 with
                                heightmap := hm,
                                riverList := out.2.1.riverList ++ [out.1] } := by
                          constructor
                          · exact hnnhm
                          · intro river hr
                            rcases List.mem_append.mp hr with hold | hnew
                            · exact hclassified
                                { out.2.1 with
                                    heightmap := hm,
                                    riverList := out.2.1.riverList ++ [out.1] }
                                rfl ⟨[], (List.append_nil _).symm⟩ river hold
                            · rw [List.mem_singleton] at hnew
                              subst hnew
                              exact ⟨rl, hlast, Or.inl ⟨v, hrd, le_of_not_lt hsea⟩⟩
                        obtain ⟨hi, h1, h2, h3, h4⟩ := ih h hinv4
                        refine ⟨hi, h1.trans f1, h2.trans f8, h3.trans f7, ?_⟩
                        refine below_trans h4 ?_
                        show hm.Below st.heightmap
                        exact below_trans hbelow (below_of_eq f2)

theorem erosLoop_inv : ∀ {rivers : List (List Coord)} {st st' : RState},
    erosLoop rivers st = .ok st' → st.heightmap.Nonneg →
    st'.heightmap.Nonneg ∧ st'.heightmap.Below st.heightmap ∧
    st'.inputH = st.inputH ∧ st'.lakeList = st.lakeList ∧
    st'.riverList = st.riverList ∧ st'.rainMap = st.rainMap ∧
    st'.waterFlow = st.waterFlow := by
  intro rivers
  induction rivers with
  | nil =>
      intro st st' h hnn
      cases h
      exact ⟨hnn, below_refl _, rfl, rfl, rfl, rfl, rfl⟩
  | cons river rest ih =>
      intro st st' h hnn
      unfold erosLoop at h
      cases he : riverErosion st river with
      | error e => rw [he] at h; dsimp only [bind, Except.bind] at h; cases h
      | ok st1 =>
          rw [he] at h
          dsimp only [bind, Except.bind] at h
          cases hu : riverMapUpdate st1 river with
          | error e => rw [hu] at h; dsimp only [bind, Except.bind] at h; cases h
          | ok st2 =>
              rw [hu] at h
              dsimp only [bind, Except.bind] at h
              obtain ⟨hb1, hn1, hs1⟩ := riverErosion_spec he hnn
              obtain ⟨s1, s2, s3, s4, s5, s6, s7, s8, s9, s10, s11, s12⟩ := hs1
              obtain ⟨u1, u2, u3, u4, u5, u6, u7, u8, u9, u10, u11, u12, u13⟩ :=
                riverMapUpdate_frame hu
              have hn2 : st2.heightmap.Nonneg := u2 ▸ hn1
              obtain ⟨k1, k2, k3, k4, k5, k6, k7⟩ := ih h hn2
              refine ⟨k1, ?_, ?_, ?_, ?_, ?_, ?_⟩
              · exact below_trans k2 (below_trans (below_of_eq u2) hb1)
              · exact k3.trans (u1.trans s1)
              · exact k4.trans (u8.trans s8)
              · exact k5.trans (u9.trans s9)
              · exact k6.trans (u7.trans s7)
              · exact k7.trans (u6.trans s6)

theorem lakesLoop_frame : ∀ {lakes : List Coord} {st st' : RState},
    lakesLoop lakes st = .ok st' →
    st'.heightmap = st.heightmap ∧ st'.inputH = st.inputH ∧
    st'.lakeList = st.lakeList ∧ st'.riverList = st.riverList := by
  intro lakes
  induction lakes with
  | nil =>
      intro st st' h
      cases h
      exact ⟨rfl, rfl, rfl, rfl⟩
  | cons lk rest ih =>
      intro st st' h
      unfold lakesLoop at h
      cases hw : st.lakeMap.writeE lk.1 lk.2 (1/10) with
      | error e => rw [hw] at h; dsimp only [bind, Except.bind] at h; cases h
      | ok lm =>
          rw [hw] at h
          dsimp only [bind, Except.bind] at h
          obtain ⟨k1, k2, k3, k4⟩ := ih h
          exact ⟨k1, k2, k3, k4⟩

theorem generate_pipeline_facts {pf : PathFinder} {rand : ℕ → ℚ} {randN : ℕ → ℕ}
    {hmap : Grid ℚ} {rm : Option (Grid ℚ)} {wrap : Bool} {fuel : ℕ} {st : RState}
    (hnn : hmap.Nonneg) (hok : generate pf rand randN hmap rm wrap fuel = .ok st) :
    st.inputH = hmap ∧
    (∀ river ∈ st.riverList, Classified river st) ∧
    (∀ a b, st.erosionMap.val a b = st.inputH.val a b - st.heightmap.val a b) := by
  unfold generate at hok
  cases hfw : findWaterFlow (initState rand randN hmap rm wrap) with
  | error e => rw [hfw] at hok; dsimp only [bind, Except.bind] at hok; cases hok
  | ok st1 =>
      rw [hfw] at hok
      dsimp only [bind, Except.bind] at hok
      obtain ⟨g1, g2, g3, g4, g5, g6, g7, g8, g9, g10, g11, g12, g13⟩ :=
        findWaterFlow_frame hfw
      have hwf1 : st1.waterFlow = some (zerosG hmap.w hmap.h 0) := g6
      cases hsrc : riverSources st1 fuel with
      | error e => rw [hsrc] at hok; dsimp only [bind, Except.bind] at hok; cases hok
      | ok srcOut =>
          rw [hsrc] at hok
          dsimp only [bind, Except.bind] at hok
          obtain ⟨r1, r2, r3, r4, r5, r6, r7, r8, r9, r10, r11, r12, r13⟩ :=
            riverSources_frame hwf1 hsrc
          have hh2 : srcOut.2.heightmap = hmap := r2.trans g2
          have hinv2 : TraceInv srcOut.2 := by
            constructor
            · rw [hh2]
              exact hnn
            · intro river hr
              rw [r9.trans g9] at hr
              cases hr
          cases htr : traceLoop pf fuel srcOut.1 srcOut.2 with
          | error e => rw [htr] at hok; dsimp only [bind, Except.bind] at hok; cases hok
          | ok st3 =>
              rw [htr] at hok
              dsimp only [bind, Except.bind] at hok
              obtain ⟨hinv3, t1, _, _, _⟩ := traceLoop_inv htr hinv2
              cases her : erosLoop st3.riverList st3 with
              | error e =>
                  rw [her] at hok; dsimp only [bind, Except.bind] at hok; cases hok
              | ok st4 =>
                  rw [her] at hok
                  dsimp only [bind, Except.bind] at hok
                  obtain ⟨hn4, hb4, e1, e2, e3, _, _⟩ := erosLoop_inv her hinv3.1
                  cases hlk : lakesLoop st4.lakeList st4 with
                  | error e =>
                      rw [hlk] at hok; dsimp only [bind, Except.bind] at hok; cases hok
                  | ok st5 =>
                      rw [hlk] at hok
                      dsimp only [bind, Except.bind] at hok
                      cases hok
                      obtain ⟨l1, l2, l3, l4⟩ := lakesLoop_frame hlk
                      have hclass5 : ∀ river ∈ st5.riverList, Classified river st5 := by
                        intro river hr
                        rw [l4, e3] at hr
                        have hc3 := hinv3.2 river hr
                        have hc4 : Classified river st4 :=
                          classified_mono hc3 hb4 ⟨[], e2 ▸ (List.append_nil _).symm⟩
                        exact classified_mono hc4 (below_of_eq l1)
                          ⟨[], l3 ▸ (List.append_nil _).symm⟩
                      refine ⟨?_, ?_, ?_⟩
                      · show st5.inputH = hmap
                        exact l2.trans (e1.trans (t1.trans (r1.trans g1)))
                      · intro river hr
                        exact hclass5 river hr
                      · intro a b
                        rfl

/-- C4: after a successful `generate` run on a heightmap with
non-negative values, every river recorded in the river list either has
its final coordinate at an elevation at or below sea level in the
current heightmap, or that final coordinate is recorded in the lake
list. -/
theorem generate_river_end_sea_or_lake {pf : PathFinder} {rand : ℕ → ℚ} {randN : ℕ → ℕ}
    {hmap : Grid ℚ} {rm : Option (Grid ℚ)} {wrap : Bool} {fuel : ℕ} {st : RState}
    (hnn : hmap.Nonneg) (hok : generate pf rand randN hmap rm wrap fuel = .ok st) :
    ∀ river ∈ st.riverList, Classified river st :=
  (generate_pipeline_facts hnn hok).2.1

/-- C10: `generate` keeps the caller's input array (threaded through the
state as `inputH`) exactly as supplied — every write goes to the
internal copy — and the erosion map is the input minus the mutated
copy. -/
theorem generate_preserves_input_heightmap {pf : PathFinder} {rand : ℕ → ℚ}
    {randN : ℕ → ℕ} {hmap : Grid ℚ} {rm : Option (Grid ℚ)} {wrap : Bool} {fuel : ℕ}
    {st : RState} (hnn : hmap.Nonneg)
    (hok : generate pf rand randN hmap rm wrap fuel = .ok st) :
    st.inputH = hmap ∧
    ∀ a b, st.erosionMap.val a b = hmap.val a b - st.heightmap.val a b := by
  obtain ⟨h1, _, h3⟩ := generate_pipeline_facts hnn hok
  refine ⟨h1, fun a b => ?_⟩
  rw [← h1]
  exact h3 a b

theorem writeW_InR (g : Grid α) (x y : ℤ) (v : α) (a b : ℤ) :
    (g.writeW x y v).InR a b ↔ g.InR a b := Iff.rfl

theorem zerosG_w (w h : ℕ) (a : α) : (zerosG w h a).w = w := rfl

theorem zerosG_h (w h : ℕ) (a : α) : (zerosG w h a).h = h := rfl

theorem atW_zerosG (w h : ℕ) (a : α) (x y : ℤ) : (zerosG w h a).atW x y = a := rfl

theorem hC7_w : hC7.w = 2 := rfl

theorem hC7_h : hC7.h = 2 := rfl

theorem hC7_atW (a b : ℤ) : hC7.atW a b = if overflow a 2 = 0 then 3/5 else 1/10 := by
  unfold hC7 Grid.atW Grid.res overflow
  norm_num

theorem rmC7_w : rmC7.w = 2 := rfl

theorem rmC7_h : rmC7.h = 2 := rfl

theorem rmC7_atW (a b : ℤ) : rmC7.atW a b = 12 := rfl

theorem hC7_nonneg : hC7.Nonneg := by
  intro a b
  unfold hC7
  dsimp only
  split <;> norm_num

theorem hCg_w : hCg.w = 2 := rfl

theorem hCg_h : hCg.h = 2 := rfl

theorem hCg_atW (a b : ℤ) : hCg.atW a b =
    if overflow a 2 = 0 ∧ overflow b 2 = 0 then 3/5
    else if overflow a 2 = 1 ∧ overflow b 2 = 0 then 1/10 else 1/20 := by
  unfold hCg Grid.atW Grid.res overflow
  norm_num

theorem hCg_nonneg : hCg.Nonneg := by
  intro a b
  unfold hCg
  dsimp only
  split
  · norm_num
  · split <;> norm_num

set_option maxHeartbeats 1000000 in
set_option maxRecDepth 8192 in
theorem cgStage1 :
    findWaterFlow (initState (fun _ => 0) (fun _ => 0) hCg (some rmC7) true) = .ok stA := by
  norm_num [findWaterFlow, initState, fwColX, fwRowY, fwCell, findQuickPath, fqStep,
    stA, Grid.read?, Grid.InR, writeW_w, writeW_h, writeW_InR, res_writeW, atW_writeW,
    Grid.res, zerosG_w, zerosG_h, atW_zerosG, hCg_w, hCg_h, hCg_atW, overflow,
    RState.wW, RState.wH, rangeZ, ofOpt, isOutOfBounds, DIR_NEIGHBORS,
    DIR_NEIGHBORS_CENTER, List.range_succ, bind, Except.bind, pure, Except.pure,
    -Prod.mk_one_one, -Prod.mk_zero_zero]

set_option maxHeartbeats 1000000 in
set_option maxRecDepth 8192 in
theorem cgStage2 :
    riverSources stA 9 = .ok ([((0 : ℤ), (0 : ℤ))], stB) := by
  norm_num [riverSources, riverSourcesV2, srcV2X, srcV2Y, srcV2Cell, followFlow,
    stA, stB, Grid.read?, Grid.InR, Grid.writeE, writeW_w, writeW_h, writeW_InR,
    res_writeW, atW_writeW, Grid.res, zerosG_w, zerosG_h, atW_zerosG, hCg_w, hCg_h,
    hCg_atW, rmC7_w, rmC7_h, rmC7_atW, overflow, RState.wW, RState.wH, rangeZ, ofOpt,
    inCircle, isOutOfBounds, DIR_NEIGHBORS_CENTER, BIOME_ELEVATION_HILLS_LOW,
    BIOME_ELEVATION_MOUNTAIN_LOW, List.range_succ, bind, Except.bind, pure,
    Except.pure, -Prod.mk_one_one, -Prod.mk_zero_zero]

theorem bind_ok {α β : Type} (a : α) (f : α → Except GenErr β) :
    (Except.ok a : Except GenErr α) >>= f = f a := rfl

theorem cg3m1 : mergeScanDirs stB ((0 : ℤ), (0 : ℤ)) DIR_NEIGHBORS = none := by
  norm_num [mergeScanDirs, scanRivers, stA, stB, DIR_NEIGHBORS, overflow,
    RState.wW, RState.wH, hCg_w, hCg_h]

theorem cg3m2 : mergeScanDirs stB ((0 : ℤ), (-1 : ℤ)) DIR_NEIGHBORS = none := by
  norm_num [mergeScanDirs, scanRivers, stA, stB, DIR_NEIGHBORS, overflow,
    RState.wW, RState.wH, hCg_w, hCg_h]

theorem cg3fq : findQuickPath stB ((0 : ℤ), (0 : ℤ)) = .ok (some ((0 : ℤ), (-1 : ℤ))) := by
  norm_num [findQuickPath, fqStep, stA, stB, Grid.read?, Grid.InR, hCg_w, hCg_h,
    hCg_atW, Grid.res, overflow, RState.wW, RState.wH, ofOpt, isOutOfBounds,
    DIR_NEIGHBORS, bind, Except.bind, pure, Except.pure,
    -Prod.mk_one_one, -Prod.mk_zero_zero]

theorem cg3flow :
    riverFlow pfNone stB ((0 : ℤ), (0 : ℤ)) 9 =
      .ok ([((0 : ℤ), (0 : ℤ)), ((0 : ℤ), (-1 : ℤ))], stB, FlowExit.sea) := by
  unfold riverFlow
  rw [riverFlowAux.eq_2]
  rw [cg3m1]
  dsimp only
  rw [show stB.heightmap = hCg from rfl]
  rw [show hCg.read? 0 0 = some (3/5 : ℚ) from rfl]
  dsimp only [ofOpt]
  rw [bind_ok]
  rw [if_neg (by norm_num [WGEN_SEA_LEVEL] : ¬ ((3/5 : ℚ) ≤ WGEN_SEA_LEVEL))]
  rw [cg3fq]
  rw [bind_ok]
  dsimp only
  rw [show ([((0 : ℤ), (0 : ℤ))] ++ [((0 : ℤ), (-1 : ℤ))] : List Coord)
      = [((0 : ℤ), (0 : ℤ)), ((0 : ℤ), (-1 : ℤ))] from rfl]
  rw [riverFlowAux.eq_2]
  rw [cg3m2]
  dsimp only
  rw [show stB.heightmap = hCg from rfl]
  rw [show hCg.read? 0 (-1) = some (1/20 : ℚ) from rfl]
  dsimp only [ofOpt]
  rw [bind_ok]
  rw [if_pos (by norm_num [WGEN_SEA_LEVEL] : ((1/20 : ℚ) ≤ WGEN_SEA_LEVEL))]

set_option maxHeartbeats 1000000 in
theorem cg3clean :
    cleanUpFlow hCg [((0 : ℤ), (0 : ℤ)), ((0 : ℤ), (-1 : ℤ))] = .ok hCg := by
  norm_num [cleanUpFlow, cleanUpAux, Grid.read?, Grid.InR, hCg_w, hCg_h, hCg_atW,
    Grid.res, overflow, bind, Except.bind, pure, Except.pure,
    -Prod.mk_one_one, -Prod.mk_zero_zero]

theorem cgStage3 :
    traceLoop pfNone 9 [((0 : ℤ), (0 : ℤ))] stB = .ok stC := by
  rw [traceLoop.eq_2]
  rw [cg3flow]
  rw [bind_ok]
  dsimp only
  rw [show ([((0 : ℤ), (0 : ℤ)), ((0 : ℤ), (-1 : ℤ))] : List Coord).getLast?
      = some ((0 : ℤ), (-1 : ℤ)) from rfl]
  dsimp only
  rw [show stB.heightmap = hCg from rfl]
  rw [cg3clean]
  rw [bind_ok]
  rw [show hCg.read? 0 (-1) = some (1/20 : ℚ) from rfl]
  dsimp only [ofOpt]
  rw [bind_ok]
  rw [if_neg (by norm_num [WGEN_SEA_LEVEL] : ¬ (WGEN_SEA_LEVEL < (1/20 : ℚ)))]
  rw [traceLoop.eq_1]
  rfl

set_option maxHeartbeats 2000000 in
set_option maxRecDepth 8192 in
theorem cgStage4 :
    erosLoop [[((0 : ℤ), (0 : ℤ)), ((0 : ℤ), (-1 : ℤ))]] stC = .ok stD := by
  norm_num [erosLoop, riverErosion, bedCarve, valleyR, valleyX, valleyY, valleyCellAt,
    riverMapUpdate, rmuLoop, RState.uniform, stA, stB, stC, stD, hmD, rmD,
    Grid.read?, Grid.InR, Grid.writeE, writeW_w, writeW_h, writeW_InR, res_writeW,
    atW_writeW, Grid.res, zerosG_w, zerosG_h, atW_zerosG, hCg_w, hCg_h, hCg_atW,
    rmC7_w, rmC7_h, rmC7_atW, overflow, RState.wW, RState.wH, rangeZ, ofOpt, inCircle,
    isOutOfBounds, List.range_succ, bind, Except.bind, pure, Except.pure,
    -Prod.mk_one_one, -Prod.mk_zero_zero]

theorem cGen_ok :
    generate pfNone (fun _ => 0) (fun _ => 0) hCg (some rmC7) true 9 = .ok cGen := by
  have hfin : generate pfNone (fun _ => 0) (fun _ => 0) hCg (some rmC7) true 9
      = .ok { stD with erosionMap := gridSub stD.inputH stD.heightmap } := by
    unfold generate
    rw [cgStage1]
    rw [bind_ok]
    rw [cgStage2]
    rw [bind_ok]
    dsimp only
    rw [cgStage3]
    rw [bind_ok]
    rw [show stC.riverList = [[((0 : ℤ), (0 : ℤ)), ((0 : ℤ), (-1 : ℤ))]] from rfl]
    rw [cgStage4]
    rw [bind_ok]
    rw [show stD.lakeList = ([] : List Coord) from rfl]
    rw [lakesLoop.eq_1]
    rw [bind_ok]
    rfl
  unfold cGen
  rw [hfin]
  rfl

/-- Witness for C4: the concrete 2×2 run records one river reaching the
sea. -/
theorem generate_river_end_sea_or_lake_witness :
    hCg.Nonneg ∧
    generate pfNone (fun _ => 0) (fun _ => 0) hCg (some rmC7) true 9 = .ok cGen ∧
    ∀ river ∈ cGen.riverList, Classified river cGen :=
  ⟨hCg_nonneg, cGen_ok, generate_river_end_sea_or_lake hCg_nonneg cGen_ok⟩

/-- Witness for C10 on the same concrete run. -/
theorem generate_preserves_input_heightmap_witness :
    hCg.Nonneg ∧
    generate pfNone (fun _ => 0) (fun _ => 0) hCg (some rmC7) true 9 = .ok cGen ∧
    (cGen.inputH = hCg ∧
      ∀ a b, cGen.erosionMap.val a b = hCg.val a b - cGen.heightmap.val a b) :=
  ⟨hCg_nonneg, cGen_ok, generate_preserves_input_heightmap hCg_nonneg cGen_ok⟩
